import Mathlib

/-!
Shallow embedding of the `keybinds` library (keyboard/mouse hotkey engine)
and verification of the frozen claims about it.

The definitions below are translated from the Python sources:
  * `keybinds/_constants.py`  — virtual-key tables, `is_modifier_vk`
  * `keybinds/_parsing.py`    — chord/sequence expression parser
  * `keybinds/types.py`       — config dataclasses and merge operators
  * `keybinds/_base_bind.py`  — shared bind runtime (checks, cooldown, fire gate)
  * `keybinds/_keyboard.py`   — keyboard bind state machine and strict-order sub-machine
  * `keybinds/_mouse.py`      — mouse bind state machine
  * `keybinds/_backend.py`    — global dispatcher's pressed-set bookkeeping and
                                OS-auto-repeat annotation

Modelling conventions:
  * virtual-key codes are `Nat`; timestamps are `Int` (Python ints, millisecond
    monotonic clock values);
  * Python `set`/`frozenset` objects are modelled as `List Nat` used only through
    membership, insertion-if-absent and removal, which matches every use in the
    sources;
  * user predicates (`config.checks`) are opaque callables that may raise; they are
    modelled as identifiers (`Nat`) interpreted by an environment
    `Nat → event → view → Except Unit Bool`, where `Except.error` models a raised
    exception;
  * fallible parsing returns `Except String`, mirroring `raise ValueError(msg)`;
  * binds are modelled without a target window (`hwnd=None` in the constructor), so
    the focus gate `self.window is not None and not self._window_ok()` is vacuous
    and `_window_ok(force=True)` in timer bodies is `True`;
  * the `_hold`/`_repeat` timer threads spawned by `ON_HOLD`/`ON_REPEAT` run their
    bodies under the bind lock; each locked body is modelled as an explicit step
    (`KbStep.holdTimer`/`KbStep.repeatTick`) interleaved into the event stream with
    arbitrary captured arguments and an arbitrary clock value.
-/

/-! ### Constants (`keybinds/_constants.py`, `keybinds/winput/winput.py`) -/

def WP_CONTINUE : Nat := 0x00
def WP_DONT_PASS_INPUT_ON : Nat := 0x04

def WM_KEYDOWN : Nat := 0x0100
def WM_KEYUP : Nat := 0x0101
def WM_SYSKEYDOWN : Nat := 0x0104
def WM_SYSKEYUP : Nat := 0x0105

def WM_LBUTTONDOWN : Nat := 0x0201
def WM_LBUTTONUP : Nat := 0x0202
def WM_RBUTTONDOWN : Nat := 0x0204
def WM_RBUTTONUP : Nat := 0x0205
def WM_MBUTTONDOWN : Nat := 0x0207
def WM_MBUTTONUP : Nat := 0x0208
def WM_XBUTTONDOWN : Nat := 0x020B
def WM_XBUTTONUP : Nat := 0x020C

def VK_SHIFT : Nat := 0x10
def VK_CONTROL : Nat := 0x11
def VK_MENU : Nat := 0x12
def VK_LSHIFT : Nat := 0xA0
def VK_RSHIFT : Nat := 0xA1
def VK_LCONTROL : Nat := 0xA2
def VK_RCONTROL : Nat := 0xA3
def VK_LMENU : Nat := 0xA4
def VK_RMENU : Nat := 0xA5
def VK_LWIN : Nat := 0x5B
def VK_RWIN : Nat := 0x5C

/-- `_constants.is_modifier_vk`: membership in the fixed tuple of modifier codes. -/
def isModifierVk (vk : Nat) : Bool :=
  [VK_SHIFT, VK_LSHIFT, VK_RSHIFT,
   VK_CONTROL, VK_LCONTROL, VK_RCONTROL,
   VK_MENU, VK_LMENU, VK_RMENU,
   VK_LWIN, VK_RWIN].contains vk

/-- `_constants._MOD_GROUPS`: modifier alias table (name → set of vk codes). -/
def MOD_GROUPS (t : String) : Option (List Nat) :=
  if t = "shift" then some [VK_SHIFT, VK_LSHIFT, VK_RSHIFT]
  else if t = "ctrl" then some [VK_CONTROL, VK_LCONTROL, VK_RCONTROL]
  else if t = "control" then some [VK_CONTROL, VK_LCONTROL, VK_RCONTROL]
  else if t = "alt" then some [VK_MENU, VK_LMENU, VK_RMENU]
  else if t = "menu" then some [VK_MENU, VK_LMENU, VK_RMENU]
  else if t = "win" then some [VK_LWIN, VK_RWIN]
  else if t = "lwin" then some [VK_LWIN]
  else if t = "rwin" then some [VK_RWIN]
  else none

/-- `_constants.SPECIAL_KEYS`: named-key table (named keys, punctuation, F-keys).
F-keys `f1`..`f24` are entered by the source's loop `0x70 + (i - 1)`. -/
def SPECIAL_KEYS (t : String) : Option Nat :=
  if t = "esc" then some 0x1B
  else if t = "escape" then some 0x1B
  else if t = "enter" then some 0x0D
  else if t = "return" then some 0x0D
  else if t = "tab" then some 0x09
  else if t = "space" then some 0x20
  else if t = "backspace" then some 0x08
  else if t = "delete" then some 0x2E
  else if t = "del" then some 0x2E
  else if t = "insert" then some 0x2D
  else if t = "home" then some 0x24
  else if t = "end" then some 0x23
  else if t = "pgup" then some 0x21
  else if t = "pageup" then some 0x21
  else if t = "pgdn" then some 0x22
  else if t = "pagedown" then some 0x22
  else if t = "up" then some 0x26
  else if t = "down" then some 0x28
  else if t = "left" then some 0x25
  else if t = "right" then some 0x27
  else if t = "volumeup" then some 0xAF
  else if t = "volumedown" then some 0xAE
  else if t = "mute" then some 0xAD
  else if t = String.singleton (Char.ofNat 96) then some 0xC0
  else if t = "backtick" then some 0xC0
  else if t = "grave" then some 0xC0
  else if t = "tilde" then some 0xC0
  else if t = "-" then some 0xBD
  else if t = "=" then some 0xBB
  else if t = "[" then some 0xDB
  else if t = "]" then some 0xDD
  else if t = String.singleton (Char.ofNat 92) then some 0xDC
  else if t = ";" then some 0xBA
  else if t = String.singleton (Char.ofNat 39) then some 0xDE
  else if t = "," then some 0xBC
  else if t = "." then some 0xBE
  else if t = "/" then some 0xBF
  else if t = "f1" then some 0x70
  else if t = "f2" then some 0x71
  else if t = "f3" then some 0x72
  else if t = "f4" then some 0x73
  else if t = "f5" then some 0x74
  else if t = "f6" then some 0x75
  else if t = "f7" then some 0x76
  else if t = "f8" then some 0x77
  else if t = "f9" then some 0x78
  else if t = "f10" then some 0x79
  else if t = "f11" then some 0x7A
  else if t = "f12" then some 0x7B
  else if t = "f13" then some 0x7C
  else if t = "f14" then some 0x7D
  else if t = "f15" then some 0x7E
  else if t = "f16" then some 0x7F
  else if t = "f17" then some 0x80
  else if t = "f18" then some 0x81
  else if t = "f19" then some 0x82
  else if t = "f20" then some 0x83
  else if t = "f21" then some 0x84
  else if t = "f22" then some 0x85
  else if t = "f23" then some 0x86
  else if t = "f24" then some 0x87
  else none

/-! ### Parser (`keybinds/_parsing.py`)

The Python parser works on `str` via `split`, `strip`, `lower`, `upper`. Both
separators are single characters, so splitting is modelled over the string's
character list (`String.data`); `strip` is modelled by trimming whitespace
characters on both ends, and `lower`/`upper` by the ASCII case maps that Python
applies to these inputs. -/

/-- Python `str.split(sep)` for a one-character separator. `split` keeps empty
pieces (`"a++b".split("+") == ["a","","b"]`, `"".split("+") == [""]`). -/
def splitOnChar (sep : Char) (s : List Char) : List (List Char) :=
  s.foldr
    (fun c acc =>
      if c = sep then [] :: acc
      else
        match acc with
        | [] => [[c]]
        | h :: t => (c :: h) :: t)
    [[]]

/-- Python `str.strip()`: drop whitespace from both ends. -/
def trimChars (s : List Char) : List Char :=
  ((s.dropWhile Char.isWhitespace).reverse.dropWhile Char.isWhitespace).reverse

/-- Python `str.lower()` on the ASCII tokens the grammar admits. -/
def lowerChar (c : Char) : Char :=
  if ('A' ≤ c ∧ c ≤ 'Z') then Char.ofNat (c.toNat + 32) else c

/-- Python `str.upper()` on a single ASCII character (`t.upper()` in the source). -/
def upperChar (c : Char) : Char :=
  if ('a' ≤ c ∧ c ≤ 'z') then Char.ofNat (c.toNat - 32) else c

/-- `_parsing._token_to_vk_group`. `Except.error` models `raise ValueError`. -/
def tokenToVkGroup (token : List Char) : Except String (List Nat) :=
  let t := (trimChars token).map lowerChar
  if t = [] then .error "empty key token"
  else match MOD_GROUPS (String.mk t) with
  | some g => .ok g
  | none =>
    match SPECIAL_KEYS (String.mk t) with
    | some vk => .ok [vk]
    | none =>
      match t with
      | [c0] =>
        let c := upperChar c0
        if ('A' ≤ c ∧ c ≤ 'Z') ∨ ('0' ≤ c ∧ c ≤ '9') then
          .ok [c.toNat]
        else .error ("Unknown key token: " ++ String.mk token)
      | _ => .error ("Unknown key token: " ++ String.mk token)

/-- `_parsing._ChordSpec`: ordered key groups plus the union of all their codes. -/
structure ChordSpec where
  groups : List (List Nat)
  allowed_union : List Nat
deriving DecidableEq, Repr

instance {ε α : Type} [DecidableEq ε] [DecidableEq α] : DecidableEq (Except ε α) := fun a b =>
  match a, b with
  | .ok x, .ok y =>
      if h : x = y then isTrue (by rw [h]) else isFalse (fun hc => h (Except.ok.inj hc))
  | .error x, .error y =>
      if h : x = y then isTrue (by rw [h]) else isFalse (fun hc => h (Except.error.inj hc))
  | .ok _, .error _ => isFalse (fun hc => Except.noConfusion hc)
  | .error _, .ok _ => isFalse (fun hc => Except.noConfusion hc)

/-- Python `union |= set(g)` on the running union, preserving membership semantics. -/
def listUnion (u g : List Nat) : List Nat :=
  u ++ g.filter (fun vk => ¬ u.contains vk)

/-- Sequential fallible traversal (a Python generator/loop that propagates the
first raised exception). -/
def exceptMapList {α β : Type} (f : α → Except String β) : List α → Except String (List β)
  | [] => .ok []
  | x :: xs =>
    match f x with
    | .error e => .error e
    | .ok y =>
      match exceptMapList f xs with
      | .error e => .error e
      | .ok ys => .ok (y :: ys)

/-- Nonempty trimmed parts of a chord expression:
`[p.strip() for p in expr.split("+") if p.strip()]` in `parse_chord`. -/
def keptTokens (expr : List Char) : List (List Char) :=
  ((splitOnChar (Char.ofNat 43) expr).map trimChars).filter (fun p => p ≠ [])

/-- `_parsing.parse_chord`. Empty (whitespace-only) tokens are filtered away
before resolution; raises `empty chord` only when no token survives. -/
def parseChord (expr : List Char) : Except String ChordSpec :=
  let parts := keptTokens expr
  if parts = [] then .error "empty chord"
  else
    match exceptMapList tokenToVkGroup parts with
    | .error e => .error e
    | .ok groupsRaw => .ok ⟨groupsRaw, groupsRaw.foldl listUnion []⟩

/-- Nonempty trimmed steps of a key expression:
`[s.strip() for s in expr.split(",") if s.strip()]` in `parse_key_expr`. -/
def keptSteps (expr : List Char) : List (List Char) :=
  ((splitOnChar (Char.ofNat 44) expr).map trimChars).filter (fun s => s ≠ [])

/-- `_parsing.parse_key_expr`. Empty (whitespace-only) steps are filtered away;
raises `empty key expression` only when no step survives. -/
def parseKeyExprChars (expr : List Char) : Except String (List ChordSpec) :=
  let steps := keptSteps expr
  if steps = [] then .error "empty key expression"
  else exceptMapList parseChord steps

/-- `parse_key_expr` on a `str` value. -/
def parseKeyExpr (expr : String) : Except String (List ChordSpec) :=
  parseKeyExprChars expr.data

/-! ### Config model (`keybinds/types.py`) -/

/-- `types.Trigger`. -/
inductive Trigger where
  | ON_PRESS | ON_RELEASE | ON_CLICK | ON_HOLD | ON_REPEAT
  | ON_DOUBLE_TAP | ON_CHORD_COMPLETE | ON_CHORD_RELEASED | ON_SEQUENCE
deriving DecidableEq, Repr

/-- `types.SuppressPolicy`. -/
inductive SuppressPolicy where
  | NEVER | ALWAYS | WHEN_MATCHED | WHILE_ACTIVE | WHILE_EVALUATING
deriving DecidableEq, Repr

/-- `types.ChordPolicy`. -/
inductive ChordPolicy where
  | RELAXED | STRICT | IGNORE_EXTRA_MODIFIERS
deriving DecidableEq, Repr

/-- `types.OrderPolicy`. -/
inductive OrderPolicy where
  | ANY | STRICT | STRICT_RECOVERABLE
deriving DecidableEq, Repr

/-- `types.InjectedPolicy`. -/
inductive InjectedPolicy where
  | ALLOW | IGNORE | ONLY
deriving DecidableEq, Repr

/-- `types.FocusPolicy`. -/
inductive FocusPolicy where
  | CANCEL_ON_BLUR | PAUSE_ON_BLUR
deriving DecidableEq, Repr

/-- `types.Timing` (frozen dataclass of non-negative millisecond integers). -/
structure Timing where
  chord_timeout_ms : Int := 350
  debounce_ms : Int := 0
  hold_ms : Int := 350
  repeat_delay_ms : Int := 350
  repeat_interval_ms : Int := 60
  double_tap_window_ms : Int := 300
  window_focus_cache_ms : Int := 50
  cooldown_ms : Int := 0
deriving DecidableEq, Repr

/-- `types.Constraints`. `ignore_keys` is a Python `set` used only through
membership, modelled as a list of codes. -/
structure Constraints where
  chord_policy : ChordPolicy := ChordPolicy.IGNORE_EXTRA_MODIFIERS
  order_policy : OrderPolicy := OrderPolicy.ANY
  allow_os_key_repeat : Bool := false
  max_fires : Option Int := none
  ignore_keys : List Nat := []
deriving DecidableEq, Repr

/-- `types.Checks`: an ordered tuple of user predicates. Predicates are opaque
callables; they are modelled as identifiers resolved by an environment at
evaluation time, so that configs stay comparable (Python compares the callable
tuples by object equality). -/
structure Checks where
  predicates : List Nat := []
deriving DecidableEq, Repr

/-- `types.BindConfig`. -/
structure BindConfig where
  trigger : Trigger := Trigger.ON_PRESS
  suppress : SuppressPolicy := SuppressPolicy.NEVER
  injected : InjectedPolicy := InjectedPolicy.ALLOW
  focus : FocusPolicy := FocusPolicy.CANCEL_ON_BLUR
  timing : Timing := {}
  constraints : Constraints := {}
  checks : Checks := {}
deriving DecidableEq, Repr

/-- `types._DEFAULT_BIND = BindConfig()`. -/
def DEFAULT_BIND : BindConfig := {}

/-- `types._DEFAULT_TIMING = Timing()`. -/
def DEFAULT_TIMING : Timing := {}

/-- `types._DEFAULT_CONSTRAINTS = Constraints()`. -/
def DEFAULT_CONSTRAINTS : Constraints := {}

/-- `types._DEFAULT_CHECKS = Checks()`. -/
def DEFAULT_CHECKS : Checks := {}

/-! `types._merge_dc_soft` iterates the fields of a dataclass, recursing into
nested dataclasses and otherwise applying the right-hand value only when it
differs from the default.  `Timing`, `Constraints` and `Checks` have no nested
dataclasses, so the generic loop instantiates to the field-wise merges below. -/

/-- `_merge_dc_soft` on `Timing`. -/
def mergeTimingSoft (lhs rhs dflt : Timing) : Timing where
  chord_timeout_ms :=
    if rhs.chord_timeout_ms ≠ dflt.chord_timeout_ms then rhs.chord_timeout_ms
    else lhs.chord_timeout_ms
  debounce_ms :=
    if rhs.debounce_ms ≠ dflt.debounce_ms then rhs.debounce_ms else lhs.debounce_ms
  hold_ms := if rhs.hold_ms ≠ dflt.hold_ms then rhs.hold_ms else lhs.hold_ms
  repeat_delay_ms :=
    if rhs.repeat_delay_ms ≠ dflt.repeat_delay_ms then rhs.repeat_delay_ms
    else lhs.repeat_delay_ms
  repeat_interval_ms :=
    if rhs.repeat_interval_ms ≠ dflt.repeat_interval_ms then rhs.repeat_interval_ms
    else lhs.repeat_interval_ms
  double_tap_window_ms :=
    if rhs.double_tap_window_ms ≠ dflt.double_tap_window_ms then rhs.double_tap_window_ms
    else lhs.double_tap_window_ms
  window_focus_cache_ms :=
    if rhs.window_focus_cache_ms ≠ dflt.window_focus_cache_ms then rhs.window_focus_cache_ms
    else lhs.window_focus_cache_ms
  cooldown_ms :=
    if rhs.cooldown_ms ≠ dflt.cooldown_ms then rhs.cooldown_ms else lhs.cooldown_ms

/-- `_merge_dc_soft` on `Constraints`. -/
def mergeConstraintsSoft (lhs rhs dflt : Constraints) : Constraints where
  chord_policy :=
    if rhs.chord_policy ≠ dflt.chord_policy then rhs.chord_policy else lhs.chord_policy
  order_policy :=
    if rhs.order_policy ≠ dflt.order_policy then rhs.order_policy else lhs.order_policy
  allow_os_key_repeat :=
    if rhs.allow_os_key_repeat ≠ dflt.allow_os_key_repeat then rhs.allow_os_key_repeat
    else lhs.allow_os_key_repeat
  max_fires := if rhs.max_fires ≠ dflt.max_fires then rhs.max_fires else lhs.max_fires
  ignore_keys :=
    if rhs.ignore_keys ≠ dflt.ignore_keys then rhs.ignore_keys else lhs.ignore_keys

/-- `_merge_dc_soft` on `Checks`. -/
def mergeChecksSoft (lhs rhs dflt : Checks) : Checks where
  predicates :=
    if rhs.predicates ≠ dflt.predicates then rhs.predicates else lhs.predicates

/-- `types.merge_bind_soft`: scalar fields applied only when non-default, then
recursive soft merges of `timing`, `constraints` and `checks`. -/
def mergeBindSoft (lhs rhs : BindConfig) : BindConfig where
  trigger := if rhs.trigger ≠ DEFAULT_BIND.trigger then rhs.trigger else lhs.trigger
  suppress := if rhs.suppress ≠ DEFAULT_BIND.suppress then rhs.suppress else lhs.suppress
  injected := if rhs.injected ≠ DEFAULT_BIND.injected then rhs.injected else lhs.injected
  focus := if rhs.focus ≠ DEFAULT_BIND.focus then rhs.focus else lhs.focus
  timing := mergeTimingSoft lhs.timing rhs.timing DEFAULT_TIMING
  constraints := mergeConstraintsSoft lhs.constraints rhs.constraints DEFAULT_CONSTRAINTS
  checks := mergeChecksSoft lhs.checks rhs.checks DEFAULT_CHECKS

/-! `types._merge_dc_hard` iterates the fields of `lhs`, recursing into nested
dataclasses and otherwise overwriting with the right-hand value
unconditionally. -/

/-- `_merge_dc_hard` on `Timing`: every field taken from `rhs`. -/
def mergeTimingHard (_lhs rhs : Timing) : Timing where
  chord_timeout_ms := rhs.chord_timeout_ms
  debounce_ms := rhs.debounce_ms
  hold_ms := rhs.hold_ms
  repeat_delay_ms := rhs.repeat_delay_ms
  repeat_interval_ms := rhs.repeat_interval_ms
  double_tap_window_ms := rhs.double_tap_window_ms
  window_focus_cache_ms := rhs.window_focus_cache_ms
  cooldown_ms := rhs.cooldown_ms

/-- `_merge_dc_hard` on `Constraints`. -/
def mergeConstraintsHard (_lhs rhs : Constraints) : Constraints where
  chord_policy := rhs.chord_policy
  order_policy := rhs.order_policy
  allow_os_key_repeat := rhs.allow_os_key_repeat
  max_fires := rhs.max_fires
  ignore_keys := rhs.ignore_keys

/-- `_merge_dc_hard` on `Checks`. -/
def mergeChecksHard (_lhs rhs : Checks) : Checks where
  predicates := rhs.predicates

/-- `types.merge_bind_hard` = `_merge_dc_hard` on `BindConfig`. -/
def mergeBindHard (lhs rhs : BindConfig) : BindConfig where
  trigger := rhs.trigger
  suppress := rhs.suppress
  injected := rhs.injected
  focus := rhs.focus
  timing := mergeTimingHard lhs.timing rhs.timing
  constraints := mergeConstraintsHard lhs.constraints rhs.constraints
  checks := mergeChecksHard lhs.checks rhs.checks

/-! ### Chord matching (`keybinds/_keyboard.py`, `Bind._match_chord`) -/

/-- `Bind._match_chord`: every group must intersect the pressed set, then the
chord policy constrains extra pressed keys. -/
def matchChord (cfg : BindConfig) (chord : ChordSpec) (pressed : List Nat) : Bool :=
  if ¬ chord.groups.all (fun g => g.any (fun vk => pressed.contains vk)) then
    false
  else
    match cfg.constraints.chord_policy with
    | ChordPolicy.RELAXED => true
    | ChordPolicy.IGNORE_EXTRA_MODIFIERS =>
        pressed.all (fun vk => chord.allowed_union.contains vk || isModifierVk vk)
    | ChordPolicy.STRICT =>
        pressed.all (fun vk =>
          cfg.constraints.ignore_keys.contains vk || chord.allowed_union.contains vk)

/-! ### Strict-order sub-machine (`keybinds/_keyboard.py`, `_StrictOrderState`) -/

/-- Runtime state for strict ordered-chord matching. `seen_set` is a Python
`set` used only through membership and insertion. -/
structure StrictOrderState where
  invalid : Bool := false
  attempt_invalid : Bool := false
  seen_groups : List Nat := []
  seen_set : List Nat := []
  locked_prefix_len : Option Nat := none
deriving DecidableEq, Repr

/-- `_StrictOrderState.__init__` / `_StrictOrderState.reset` (identical fields). -/
def StrictOrderState.init : StrictOrderState := {}

/-- `_StrictOrderState.group_index_for_vk`: index of the first group containing
`vk`. -/
def groupIndexForVk (chord : ChordSpec) (vk : Nat) : Option Nat :=
  chord.groups.findIdx? (fun g => g.contains vk)

/-- `_StrictOrderState.pressed_group_indices`: indices of groups intersecting
the pressed set, in group order. -/
def pressedGroupIndices (chord : ChordSpec) (pressed : List Nat) : List Nat :=
  ((chord.groups.enum.filter (fun p => p.2.any (fun vk => pressed.contains vk))).map
    (fun p => p.1))

/-- `_StrictOrderState._is_prefix_indices`: `idxs == list(range(len(idxs)))`. -/
def isPrefixIndices (idxs : List Nat) : Bool :=
  idxs == List.range idxs.length

/-- `_StrictOrderState.on_event` — state transition on every hook event;
`pressed` is post-event. The `is_up` parameter is accepted (as in the source
signature) but unused by the body. -/
def StrictOrderState.onEvent (s : StrictOrderState) (chord : ChordSpec)
    (pressed : List Nat) (vkEvt : Nat) (_isUp freshDown recoverable : Bool) :
    StrictOrderState :=
  if s.invalid then s
  else
    let pressedIdxs := pressedGroupIndices chord pressed
    let isPrefix := isPrefixIndices pressedIdxs
    -- maintain lock (after first success only)
    let s1 :=
      match s.locked_prefix_len with
      | some l =>
          if isPrefix ∧ pressedIdxs.length < l then
            { s with locked_prefix_len := some pressedIdxs.length }
          else s
      | none => s
    -- recoverable: clear local tail-attempt error on return to a valid prefix
    let s2 :=
      if recoverable then
        match s1.locked_prefix_len with
        | some l =>
            if isPrefix ∧ pressedIdxs.length ≤ l then { s1 with attempt_invalid := false }
            else s1
        | none => s1
      else s1
    -- prefix invariant handling
    if ¬ isPrefix then
      match s2.locked_prefix_len with
      | none => { s2 with invalid := true }
      | some l =>
          if pressedIdxs.take l ≠ List.range l then { s2 with invalid := true }
          else if recoverable then { s2 with attempt_invalid := true }
          else { s2 with invalid := true }
    else if ¬ chord.allowed_union.contains vkEvt then s2
    else
      match groupIndexForVk chord vkEvt with
      | none => s2
      | some gi =>
          if freshDown then
            match s2.locked_prefix_len with
            | none =>
                -- before first success: first-seen groups must arrive in order
                if ¬ s2.seen_set.contains gi then
                  if gi ≠ s2.seen_groups.length then { s2 with invalid := true }
                  else
                    { s2 with seen_groups := s2.seen_groups ++ [gi],
                              seen_set := gi :: s2.seen_set }
                else s2
            | some l =>
                -- after first success: locked prefix may not be re-pressed
                if gi < l then { s2 with invalid := true }
                else if isPrefix then
                  if gi ≠ pressedIdxs.length - 1 then
                    if recoverable then { s2 with attempt_invalid := true }
                    else { s2 with invalid := true }
                  else s2
                else s2
          else s2

/-- `_StrictOrderState.allows_full`. -/
def StrictOrderState.allowsFull (s : StrictOrderState) (chord : ChordSpec)
    (pressed : List Nat) (recoverable : Bool) : Bool :=
  if s.invalid then false
  else if recoverable ∧ s.attempt_invalid then false
  else isPrefixIndices (pressedGroupIndices chord pressed)

/-- `_StrictOrderState.on_full_rising_edge`: lock all but the last group
(`max(0, len(groups) - 1)`; `Nat` subtraction truncates at `0` identically). -/
def StrictOrderState.onFullRisingEdge (s : StrictOrderState) (chord : ChordSpec) :
    StrictOrderState :=
  match s.locked_prefix_len with
  | none => { s with locked_prefix_len := some (chord.groups.length - 1) }
  | some _ => s

/-! ### Keyboard bind runtime (`keybinds/_keyboard.py`, `keybinds/_base_bind.py`)

The per-bind runtime fields of `Bind.__init__` plus those of
`BaseBind.__init__`.  The bind is modelled without a target window, so the
focus-cache fields (read only when `self.window is not None`) are omitted.
`_repeat_active` is created lazily by `reset()` in the source (a fresh bind has
no such attribute); it is modelled as `false` for a fresh bind. -/

structure BindState where
  seq_index : Nat := 0
  seq_last_ms : Int := 0
  last_event_ms : Int := 0
  click_down_ms : Option Int := none
  armed : Bool := false
  was_full : Bool := false
  tap_count : Nat := 0
  tap_last_ms : Int := 0
  had_full : Bool := false
  release_armed : Bool := false
  invalidated : Bool := false
  hold_token : Nat := 0
  repeat_active : Bool := false
  last_fire_ms : Int := 0
  fires : Nat := 0
  strict : StrictOrderState := {}
deriving DecidableEq, Repr

/-- The runtime state of a freshly constructed keyboard bind. -/
def BindState.initial : BindState := {}

/-- `Bind.reset` (`_keyboard.py` lines 263–276): restores the trigger machine
and bumps the hold-token generation counter. -/
def Bind.reset (s : BindState) : BindState :=
  { s with
    seq_index := 0
    seq_last_ms := 0
    click_down_ms := none
    tap_count := 0
    tap_last_ms := 0
    hold_token := s.hold_token + 1
    armed := false
    was_full := false
    had_full := false
    release_armed := false
    invalidated := false
    repeat_active := false
    strict := StrictOrderState.init }

/-- `winput.KeyboardEvent` as consumed by the engine, together with the
`_sb_is_repeat` attribute that the dispatcher attaches. -/
structure KeyboardEvent where
  action : Nat
  vkCode : Nat
  time : Int
  injected : Bool
  sb_is_repeat : Bool
deriving DecidableEq, Repr

/-- `_state.InputState` restricted to the keyboard sets (the `Optional` set
fields are always populated by the dispatcher). -/
structure InputStateView where
  pressed_keys : List Nat
  pressed_keys_all : List Nat
  pressed_keys_injected : List Nat
deriving DecidableEq, Repr

/-- Interpretation of predicate identifiers: a call on (event, state) either
returns a `Bool` or raises (`Except.error`). -/
def KbPredEnv : Type := Nat → KeyboardEvent → InputStateView → Except Unit Bool

/-- `BaseBind._checks_ok` (keyboard path): short-circuit AND over the
predicates; a raised exception is caught and treated as `False`, with no
diagnostic output.  The second component counts diagnostics written (always
`0` here). -/
def BaseBind.checksOkRun {α : Type} (preds : List Nat)
    (env : Nat → α → InputStateView → Except Unit Bool) (e : α) (v : InputStateView) :
    Bool × Nat :=
  match preds with
  | [] => (true, 0)
  | p :: rest =>
      match env p e v with
      | .error _ => (false, 0)
      | .ok false => (false, 0)
      | .ok true => BaseBind.checksOkRun rest env e v

/-- `MouseBind._checks_ok`: identical result, but a raised exception calls
`traceback.print_exc()` before returning `False`; the second component counts
those diagnostics. -/
def MouseBind.checksOkRun {α : Type} (preds : List Nat)
    (env : Nat → α → InputStateView → Except Unit Bool) (e : α) (v : InputStateView) :
    Bool × Nat :=
  match preds with
  | [] => (true, 0)
  | p :: rest =>
      match env p e v with
      | .error _ => (false, 1)
      | .ok false => (false, 0)
      | .ok true => MouseBind.checksOkRun rest env e v

/-- `Bind._debounce_ok`. -/
def debounceOk (cfg : BindConfig) (s : BindState) (now : Int) : Bool :=
  cfg.timing.debounce_ms ≤ 0 || now - s.last_event_ms ≥ cfg.timing.debounce_ms

/-- `Bind._step_timeout_ok`. -/
def stepTimeoutOk (cfg : BindConfig) (steps : List ChordSpec) (s : BindState)
    (now : Int) : Bool :=
  if ¬ steps.length > 1 ∨ s.seq_index = 0 then true
  else now - s.seq_last_ms ≤ cfg.timing.chord_timeout_ms

/-- `BaseBind._cooldown_ok`. -/
def cooldownOk (cfg : BindConfig) (s : BindState) (now : Int) : Bool :=
  cfg.timing.cooldown_ms ≤ 0 || now - s.last_fire_ms ≥ cfg.timing.cooldown_ms

/-- `BaseBind._max_fires_ok`. -/
def maxFiresOk (cfg : BindConfig) (s : BindState) : Bool :=
  match cfg.constraints.max_fires with
  | none => true
  | some mx => (s.fires : Int) < mx

/-- The `fire_if_allowed` closure of `Bind.handle` / `MouseBind.handle`: the
fire gate consults the cooldown (`last_fire_ms`) and the `max_fires` cap, and
on success bumps `fires`, records `last_fire_ms := ts` and submits the
callback. -/
def fireIfAllowed (cfg : BindConfig) (s : BindState) (ts : Int) : BindState × Bool :=
  if cooldownOk cfg s ts && maxFiresOk cfg s then
    ({ s with fires := s.fires + 1, last_fire_ms := ts }, true)
  else (s, false)

/-! ### Keyboard event evaluation (`Bind.handle`, `_keyboard.py` lines 318–570) -/

/-- `event.action in (WM_KEYDOWN, WM_SYSKEYDOWN)`. -/
def isDownEvent (e : KeyboardEvent) : Bool :=
  e.action = WM_KEYDOWN || e.action = WM_SYSKEYDOWN

/-- `event.action in (WM_KEYUP, WM_SYSKEYUP)`. -/
def isUpEvent (e : KeyboardEvent) : Bool :=
  e.action = WM_KEYUP || e.action = WM_SYSKEYUP

/-- `fresh_down = is_down and (allow_os_key_repeat or not is_repeat)`. -/
def freshDown (cfg : BindConfig) (e : KeyboardEvent) : Bool :=
  isDownEvent e && (cfg.constraints.allow_os_key_repeat || !e.sb_is_repeat)

/-- `opol in (OrderPolicy.STRICT, OrderPolicy.STRICT_RECOVERABLE)`. -/
def isStrictOrder (cfg : BindConfig) : Bool :=
  cfg.constraints.order_policy = OrderPolicy.STRICT ||
  cfg.constraints.order_policy = OrderPolicy.STRICT_RECOVERABLE

/-- `opol == OrderPolicy.STRICT_RECOVERABLE`. -/
def isRecoverableOrder (cfg : BindConfig) : Bool :=
  cfg.constraints.order_policy = OrderPolicy.STRICT_RECOVERABLE

/-- Domain selection for matching the pressed set (`handle`, lines 347–358):
`IGNORE` → physical; `ONLY` → injected; `ALLOW` → for an injected event, the
injected keys plus the *physical modifiers*, else physical. -/
def pressedDomain (cfg : BindConfig) (e : KeyboardEvent) (v : InputStateView) :
    List Nat :=
  match cfg.injected with
  | InjectedPolicy.IGNORE => v.pressed_keys
  | InjectedPolicy.ONLY => v.pressed_keys_injected
  | InjectedPolicy.ALLOW =>
      if e.injected then
        v.pressed_keys_injected ++ v.pressed_keys.filter (fun vk => isModifierVk vk)
      else v.pressed_keys

/-- The bind state after the gates that mutate state: the sequence-step-timeout
reset followed by the `last_event_ms` update (`handle`, lines 332–335). -/
def gateState (cfg : BindConfig) (steps : List ChordSpec) (s : BindState)
    (now : Int) : BindState :=
  let s1 := if ¬ stepTimeoutOk cfg steps s now then Bind.reset s else s
  { s1 with last_event_ms := now }

/-- The strict-order state after `on_event` has run for this event (a no-op
unless the order policy is strict). -/
def strictStep (cfg : BindConfig) (chord : ChordSpec) (pressed : List Nat)
    (e : KeyboardEvent) (st : StrictOrderState) : StrictOrderState :=
  if isStrictOrder cfg then
    st.onEvent chord pressed e.vkCode (isUpEvent e) (freshDown cfg e)
      (isRecoverableOrder cfg)
  else st

/-- `full` for this event: the chord match, forced to `False` when strict order
rejects it (`handle`, lines 380–384). -/
def evalFullAfter (cfg : BindConfig) (chord : ChordSpec) (pressed : List Nat)
    (strict1 : StrictOrderState) : Bool :=
  let full0 := matchChord cfg chord pressed
  if isStrictOrder cfg && full0 &&
      ! strict1.allowsFull chord pressed (isRecoverableOrder cfg) then false
  else full0

/-- The suppression verdict computed before the trigger branch (`handle`,
lines 406–435).  `armed` equals `full` at this point in the source. -/
def suppressFlagsBase (cfg : BindConfig) (chord : ChordSpec) (pressed : List Nat)
    (vkEvt : Nat) (full prevFull : Bool) : Nat :=
  let relevant := chord.allowed_union.contains vkEvt || isModifierVk vkEvt
  match cfg.suppress with
  | SuppressPolicy.ALWAYS => WP_DONT_PASS_INPUT_ON
  | SuppressPolicy.WHILE_ACTIVE =>
      if full && relevant then WP_DONT_PASS_INPUT_ON else WP_CONTINUE
  | SuppressPolicy.WHILE_EVALUATING =>
      let inProgress :=
        full || prevFull ||
          chord.allowed_union.any (fun vk => pressed.contains vk) ||
          pressed.any (fun vk => isModifierVk vk)
      if inProgress && relevant then WP_DONT_PASS_INPUT_ON else WP_CONTINUE
  | _ => WP_CONTINUE

/-- Result of one `handle` call: the new bind state, whether a callback was
submitted, and the suppression flags returned to the dispatcher. -/
structure HandleResult where
  state : BindState
  fired : Bool
  flags : Nat
deriving DecidableEq, Repr

/-- The single-chord trigger branch of `handle` (lines 467–561), acting on the
state already updated with this event's `strict`/`armed`/`had_full`/
`release_armed` bookkeeping.  `ON_HOLD` synchronously bumps `hold_token` and
spawns its timer (modelled by `holdTimerBody`); `ON_REPEAT` synchronously sets
`repeat_active` and spawns its loop (modelled by `repeatTickBody`). -/
def triggerStep (cfg : BindConfig) (chord : ChordSpec) (now : Int) (vkEvt : Nat)
    (isDown isUp freshDn full prevFull anyPressed : Bool) (s : BindState) :
    BindState × Bool :=
  match cfg.trigger with
  | Trigger.ON_PRESS =>
      if full && freshDn && chord.allowed_union.contains vkEvt then
        fireIfAllowed cfg s now
      else (s, false)
  | Trigger.ON_CHORD_COMPLETE =>
      if full && freshDn && !prevFull && chord.allowed_union.contains vkEvt then
        fireIfAllowed cfg s now
      else (s, false)
  | Trigger.ON_RELEASE =>
      if s.had_full && s.release_armed && isUp && chord.allowed_union.contains vkEvt then
        let r := fireIfAllowed cfg s now
        ({ r.1 with release_armed := false }, r.2)
      else (s, false)
  | Trigger.ON_CHORD_RELEASED =>
      if s.had_full && isUp && chord.allowed_union.contains vkEvt && !anyPressed then
        let r := fireIfAllowed cfg s now
        ({ r.1 with had_full := false, release_armed := false,
                    strict := StrictOrderState.init }, r.2)
      else (s, false)
  | Trigger.ON_CLICK =>
      if full && freshDn then ({ s with click_down_ms := some now }, false)
      else if isUp then
        match s.click_down_ms with
        | some t0 =>
            let s1 := { s with click_down_ms := none }
            if now - t0 ≤ cfg.timing.hold_ms then fireIfAllowed cfg s1 now
            else (s1, false)
        | none => (s, false)
      else (s, false)
  | Trigger.ON_HOLD =>
      if full && freshDn then ({ s with hold_token := s.hold_token + 1 }, false)
      else (s, false)
  | Trigger.ON_REPEAT =>
      if full && isDown && !s.repeat_active then
        ({ s with repeat_active := true }, false)
      else (s, false)
  | Trigger.ON_DOUBLE_TAP =>
      if full && freshDn then
        let tapCount :=
          if now - s.tap_last_ms ≤ cfg.timing.double_tap_window_ms then s.tap_count + 1
          else 1
        let s1 := { s with tap_count := tapCount, tap_last_ms := now }
        if tapCount ≥ 2 then fireIfAllowed cfg { s1 with tap_count := 0 } now
        else (s1, false)
      else (s, false)
  | Trigger.ON_SEQUENCE => (s, false)

/-- The body of `handle` after all early-return gates (`_keyboard.py` lines
344–570).  Every fire site in the source ORs `WP_DONT_PASS_INPUT_ON` into the
flags exactly when the fire succeeded and `suppress == WHEN_MATCHED`; at most
one fire happens per event, so that OR is applied once at the end. -/
def handleCore (cfg : BindConfig) (steps : List ChordSpec) (s1 : BindState)
    (e : KeyboardEvent) (v : InputStateView) : HandleResult :=
  let now := e.time
  let chord := steps.getD s1.seq_index ⟨[], []⟩
  let pressed := pressedDomain cfg e v
  let vkEvt := e.vkCode
  let freshDn := freshDown cfg e
  let strict1 := strictStep cfg chord pressed e s1.strict
  let prevFull := s1.was_full
  let full := evalFullAfter cfg chord pressed strict1
  let strict2 :=
    if isStrictOrder cfg && full && !prevFull then strict1.onFullRisingEdge chord
    else strict1
  let s2 :=
    { s1 with
      strict := strict2
      armed := full
      had_full := s1.had_full || full
      release_armed := if full && !prevFull then true else s1.release_armed }
  let anyPressed := chord.allowed_union.any (fun vk => pressed.contains vk)
  let baseFlags := suppressFlagsBase cfg chord pressed vkEvt full prevFull
  if steps.length > 1 then
    -- sequence path (lines 448–465)
    let r :=
      if full && freshDn then
        let s3 := { s2 with seq_last_ms := now }
        if s3.seq_index = steps.length - 1 then
          let r4 :=
            if cfg.trigger = Trigger.ON_SEQUENCE ∨ cfg.trigger = Trigger.ON_PRESS ∨
                cfg.trigger = Trigger.ON_CHORD_COMPLETE then
              fireIfAllowed cfg s3 now
            else (s3, false)
          (Bind.reset r4.1, r4.2)
        else
          ({ s3 with seq_index := s3.seq_index + 1, strict := StrictOrderState.init },
           false)
      else (s2, false)
    let s5 := { r.1 with was_full := full }
    let s6 :=
      if !anyPressed then
        { s5 with had_full := false, release_armed := false,
                  strict := StrictOrderState.init }
      else s5
    { state := s6, fired := r.2,
      flags := baseFlags |||
        (if r.2 && cfg.suppress = SuppressPolicy.WHEN_MATCHED then WP_DONT_PASS_INPUT_ON
         else 0) }
  else
    -- single-chord path (lines 467–570)
    let r := triggerStep cfg chord now vkEvt (isDownEvent e) (isUpEvent e) freshDn
               full prevFull anyPressed s2
    let s4 :=
      if !anyPressed then
        { r.1 with had_full := false, release_armed := false,
                   strict := StrictOrderState.init }
      else r.1
    let s5 := { s4 with was_full := full }
    { state := s5, fired := r.2,
      flags := baseFlags |||
        (if r.2 && cfg.suppress = SuppressPolicy.WHEN_MATCHED then WP_DONT_PASS_INPUT_ON
         else 0) }

/-- `Bind.handle`: gate order is focus (vacuous here: no target window), user
predicates, debounce, sequence-step timeout + `last_event_ms` update, injected
filter, then the core evaluation. -/
def Bind.handle (cfg : BindConfig) (steps : List ChordSpec) (env : KbPredEnv)
    (s : BindState) (e : KeyboardEvent) (v : InputStateView) : HandleResult :=
  let now := e.time
  if cfg.checks.predicates ≠ [] &&
      !(BaseBind.checksOkRun cfg.checks.predicates env e v).1 then
    { state := s, fired := false, flags := WP_CONTINUE }
  else if ! debounceOk cfg s now then
    { state := s, fired := false, flags := WP_CONTINUE }
  else
    let s1 := gateState cfg steps s now
    if (cfg.injected = InjectedPolicy.IGNORE && e.injected) ||
        (cfg.injected = InjectedPolicy.ONLY && !e.injected) then
      { state := s1, fired := false, flags := WP_CONTINUE }
    else handleCore cfg steps s1 e v

/-- The locked body of the `_hold` timer thread (`handle`, lines 518–526): the
captured `hold_token` must be unchanged and the captured chord must still match
the captured pressed set (`_window_ok(force=True)` is `True`: no window). -/
def holdTimerBody (cfg : BindConfig) (token : Nat) (chord0 : ChordSpec)
    (pressed0 : List Nat) (ts : Int) (s : BindState) : BindState × Bool :=
  if token ≠ s.hold_token then (s, false)
  else if matchChord cfg chord0 pressed0 then fireIfAllowed cfg s ts
  else (s, false)

/-- One locked iteration of the `_repeat` timer loop (`handle`, lines 537–546). -/
def repeatTickBody (cfg : BindConfig) (chord0 : ChordSpec) (pressed0 : List Nat)
    (ts : Int) (s : BindState) : BindState × Bool :=
  if ¬ matchChord cfg chord0 pressed0 then ({ s with repeat_active := false }, false)
  else fireIfAllowed cfg s ts

/-! ### Dispatcher pressed-set bookkeeping (`keybinds/_backend.py`,
`_GlobalBackend._on_keyboard`) -/

/-- Python `set.add`: insert if absent (membership semantics). -/
def setAdd (l : List Nat) (vk : Nat) : List Nat :=
  if l.contains vk then l else l ++ [vk]

/-- Python `set.discard`: remove if present. -/
def setDiscard (l : List Nat) (vk : Nat) : List Nat :=
  l.filter (fun x => x ≠ vk)

/-- The three keyboard pressed-key sets maintained by the global backend. -/
structure BackendKeys where
  pressed_keys : List Nat := []
  pressed_keys_all : List Nat := []
  pressed_keys_injected : List Nat := []
deriving DecidableEq, Repr

/-- A raw OS keyboard event as delivered to `_GlobalBackend._on_keyboard`. -/
structure RawKeyEvent where
  action : Nat
  vkCode : Nat
  time : Int
  injected : Bool
deriving DecidableEq, Repr

/-- `_GlobalBackend._on_keyboard` up to the bind dispatch: update the pressed
sets, annotate the event with `_sb_is_repeat` (keydown while already pressed in
the event's domain), and build the `InputState` snapshot handed to binds. -/
def backendOnKeyboard (b : BackendKeys) (raw : RawKeyEvent) :
    BackendKeys × KeyboardEvent × InputStateView :=
  let vk := raw.vkCode
  let isDown := raw.action = WM_KEYDOWN || raw.action = WM_SYSKEYDOWN
  let isUp := raw.action = WM_KEYUP || raw.action = WM_SYSKEYUP
  let wasDown :=
    if isDown then
      (if raw.injected then b.pressed_keys_injected else b.pressed_keys).contains vk
    else false
  let allKeys :=
    if isDown then setAdd b.pressed_keys_all vk
    else if isUp then setDiscard b.pressed_keys_all vk
    else b.pressed_keys_all
  let physKeys :=
    if isDown then (if raw.injected then b.pressed_keys else setAdd b.pressed_keys vk)
    else if isUp then setDiscard b.pressed_keys vk
    else b.pressed_keys
  let injKeys :=
    if isDown then
      (if raw.injected then setAdd b.pressed_keys_injected vk else b.pressed_keys_injected)
    else if isUp then setDiscard b.pressed_keys_injected vk
    else b.pressed_keys_injected
  let b1 : BackendKeys := ⟨physKeys, allKeys, injKeys⟩
  (b1,
   ⟨raw.action, vk, raw.time, raw.injected, isDown && wasDown⟩,
   ⟨physKeys, allKeys, injKeys⟩)

/-- A step of a keyboard bind's execution: either a hook event dispatched by
the backend, or the locked body of a pending `_hold`/`_repeat` timer with its
captured arguments and its own clock reading. -/
inductive KbStep where
  | key (raw : RawKeyEvent)
  | holdTimer (token : Nat) (chord0 : ChordSpec) (pressed0 : List Nat) (ts : Int)
  | repeatTick (chord0 : ChordSpec) (pressed0 : List Nat) (ts : Int)
deriving Repr

/-- State of a run of one keyboard bind against an event stream.  `fireLog`
records the timestamps passed to successful `fire_if_allowed` calls
(= callback submissions), in order. -/
structure KbRunState where
  backend : BackendKeys := {}
  bind : BindState := {}
  fireLog : List Int := []
deriving Repr

/-- Execute one step of a keyboard bind run. -/
def kbRunStep (cfg : BindConfig) (steps : List ChordSpec) (env : KbPredEnv)
    (r : KbRunState) (st : KbStep) : KbRunState :=
  match st with
  | KbStep.key raw =>
      let bev := backendOnKeyboard r.backend raw
      let h := Bind.handle cfg steps env r.bind bev.2.1 bev.2.2
      ⟨bev.1, h.state, if h.fired then r.fireLog ++ [bev.2.1.time] else r.fireLog⟩
  | KbStep.holdTimer token chord0 pressed0 ts =>
      let p := holdTimerBody cfg token chord0 pressed0 ts r.bind
      ⟨r.backend, p.1, if p.2 then r.fireLog ++ [ts] else r.fireLog⟩
  | KbStep.repeatTick chord0 pressed0 ts =>
      let p := repeatTickBody cfg chord0 pressed0 ts r.bind
      ⟨r.backend, p.1, if p.2 then r.fireLog ++ [ts] else r.fireLog⟩

/-- Run a keyboard bind (fresh backend and bind state) over a stream of steps. -/
def kbRun (cfg : BindConfig) (steps : List ChordSpec) (env : KbPredEnv)
    (stream : List KbStep) : KbRunState :=
  stream.foldl (kbRunStep cfg steps env) {}

/-! ### Mouse bind (`keybinds/_mouse.py`)

`MouseBindConfig` has the same fields as `BindConfig` (only the dataclass
default for `trigger` differs, which none of the definitions below read), so
the same config structure is used. -/

/-- `types.MouseButton`. -/
inductive MouseButton where
  | LEFT | RIGHT | MIDDLE | X1 | X2
deriving DecidableEq, Repr

/-- `winput.MouseEvent` as consumed by `MouseBind.handle` (`additional_data`
carries which X-button: 1 or 2). -/
structure MouseEvent where
  action : Nat
  time : Int
  injected : Bool
  additional_data : Nat
deriving DecidableEq, Repr

/-- Interpretation of mouse predicate identifiers. -/
def MousePredEnv : Type := Nat → MouseEvent → InputStateView → Except Unit Bool

/-- Runtime state of `MouseBind.__init__` (focus-cache fields omitted: no
target window in this model). -/
structure MouseBindState where
  down_ms : Option Int := none
  tap_count : Nat := 0
  tap_last_ms : Int := 0
  repeat_active : Bool := false
  armed : Bool := false
  fires : Nat := 0
  last_fire_ms : Int := 0
  suppress_next_up : Bool := false
deriving DecidableEq, Repr

/-- `MouseBind._actions_for_button`. -/
def actionsForButton (button : MouseButton) : Nat × Nat :=
  match button with
  | MouseButton.LEFT => (WM_LBUTTONDOWN, WM_LBUTTONUP)
  | MouseButton.RIGHT => (WM_RBUTTONDOWN, WM_RBUTTONUP)
  | MouseButton.MIDDLE => (WM_MBUTTONDOWN, WM_MBUTTONUP)
  | _ => (WM_XBUTTONDOWN, WM_XBUTTONUP)

/-- `MouseBind._xbutton_match`. -/
def xbuttonMatch (button : MouseButton) (e : MouseEvent) : Bool :=
  if e.action ≠ WM_XBUTTONDOWN ∧ e.action ≠ WM_XBUTTONUP then true
  else
    match button with
    | MouseButton.X1 => e.additional_data = 1
    | MouseButton.X2 => e.additional_data = 2
    | _ => true

/-- `MouseBind._cooldown_ok` (identical formula to the keyboard one, reading
the mouse state). -/
def mouseCooldownOk (cfg : BindConfig) (s : MouseBindState) (now : Int) : Bool :=
  cfg.timing.cooldown_ms ≤ 0 || now - s.last_fire_ms ≥ cfg.timing.cooldown_ms

/-- `MouseBind._max_fires_ok`. -/
def mouseMaxFiresOk (cfg : BindConfig) (s : MouseBindState) : Bool :=
  match cfg.constraints.max_fires with
  | none => true
  | some mx => (s.fires : Int) < mx

/-- The `fire_if_allowed` closure of `MouseBind.handle`. -/
def mouseFireIfAllowed (cfg : BindConfig) (s : MouseBindState) (ts : Int) :
    MouseBindState × Bool :=
  if mouseCooldownOk cfg s ts && mouseMaxFiresOk cfg s then
    ({ s with fires := s.fires + 1, last_fire_ms := ts }, true)
  else (s, false)

/-- Result of one `MouseBind.handle` call. -/
structure MouseHandleResult where
  state : MouseBindState
  fired : Bool
  flags : Nat
deriving DecidableEq, Repr

/-- The armed/repeat bookkeeping of `MouseBind.handle` on a down/up of the
target button (`_mouse.py` lines 172–176). -/
def mouseArmUpdate (isDown isUp : Bool) (s : MouseBindState) : MouseBindState :=
  if isDown then { s with armed := true }
  else if isUp then { s with armed := false, repeat_active := false }
  else s

/-- The trigger branch of `MouseBind.handle` (`_mouse.py` lines 203–261),
acting on the state already updated by `mouseArmUpdate`.  `ON_HOLD` and
`ON_REPEAT` spawn their timer threads (modelled by `mouseHoldTimerBody` /
`mouseRepeatTickBody`); `ON_REPEAT` sets `repeat_active` synchronously. -/
def mouseTriggerStep (cfg : BindConfig) (now : Int) (isDown isUp : Bool)
    (s1 : MouseBindState) : MouseBindState × Bool :=
  match cfg.trigger with
  | Trigger.ON_PRESS =>
      if isDown then mouseFireIfAllowed cfg s1 now else (s1, false)
  | Trigger.ON_RELEASE =>
      if isUp then mouseFireIfAllowed cfg s1 now else (s1, false)
  | Trigger.ON_CLICK =>
      if isDown then ({ s1 with down_ms := some now }, false)
      else if isUp then
        match s1.down_ms with
        | some t0 =>
            let s2 := { s1 with down_ms := none }
            if now - t0 ≤ cfg.timing.hold_ms then mouseFireIfAllowed cfg s2 now
            else (s2, false)
        | none => (s1, false)
      else (s1, false)
  | Trigger.ON_HOLD => (s1, false)
  | Trigger.ON_REPEAT =>
      if isDown && !s1.repeat_active then
        ({ s1 with repeat_active := true }, false)
      else (s1, false)
  | Trigger.ON_DOUBLE_TAP =>
      if isDown then
        let tapCount :=
          if now - s1.tap_last_ms ≤ cfg.timing.double_tap_window_ms then
            s1.tap_count + 1
          else 1
        let s2 := { s1 with tap_count := tapCount, tap_last_ms := now }
        if tapCount ≥ 2 then mouseFireIfAllowed cfg { s2 with tap_count := 0 } now
        else (s2, false)
      else (s1, false)
  | _ => (s1, false)

/-- `MouseBind.handle` (`_mouse.py` lines 141–263).  Every fire site in the
source ORs `WP_DONT_PASS_INPUT_ON` into the flags exactly when the fire
succeeded and `suppress == WHEN_MATCHED`; at most one fire happens per event,
so that OR is applied once at the end. -/
def MouseBind.handle (cfg : BindConfig) (button : MouseButton) (env : MousePredEnv)
    (s : MouseBindState) (e : MouseEvent) (v : InputStateView) : MouseHandleResult :=
  let now := e.time
  if cfg.checks.predicates ≠ [] &&
      !(MouseBind.checksOkRun cfg.checks.predicates env e v).1 then
    { state := s, fired := false, flags := WP_CONTINUE }
  else if ! xbuttonMatch button e then
    { state := s, fired := false, flags := WP_CONTINUE }
  else if (cfg.injected = InjectedPolicy.IGNORE && e.injected) ||
      (cfg.injected = InjectedPolicy.ONLY && !e.injected) then
    { state := s, fired := false, flags := WP_CONTINUE }
  else
    let acts := actionsForButton button
    let isDown := e.action = acts.1
    let isUp := e.action = acts.2
    if !isDown && !isUp then { state := s, fired := false, flags := WP_CONTINUE }
    else
      let wasArmed := s.armed
      let s1 := mouseArmUpdate isDown isUp s
      let baseFlags :=
        match cfg.suppress with
        | SuppressPolicy.ALWAYS => WP_DONT_PASS_INPUT_ON
        | SuppressPolicy.WHILE_ACTIVE =>
            if s1.armed then WP_DONT_PASS_INPUT_ON else WP_CONTINUE
        | SuppressPolicy.WHILE_EVALUATING =>
            if s1.armed || wasArmed then WP_DONT_PASS_INPUT_ON else WP_CONTINUE
        | _ => WP_CONTINUE
      let r := mouseTriggerStep cfg now isDown isUp s1
      { state := r.1, fired := r.2,
        flags := baseFlags |||
          (if r.2 && cfg.suppress = SuppressPolicy.WHEN_MATCHED then
            WP_DONT_PASS_INPUT_ON
           else 0) }

/-- The locked body of the mouse `_hold` timer thread (`_mouse.py` lines
224–230): fire only if the button is still armed. -/
def mouseHoldTimerBody (cfg : BindConfig) (ts : Int) (s : MouseBindState) :
    MouseBindState × Bool :=
  if s.armed then mouseFireIfAllowed cfg s ts else (s, false)

/-- One locked iteration of the mouse `_repeat` timer loop (`_mouse.py` lines
240–247). -/
def mouseRepeatTickBody (cfg : BindConfig) (ts : Int) (s : MouseBindState) :
    MouseBindState × Bool :=
  if !s.armed then ({ s with repeat_active := false }, false)
  else mouseFireIfAllowed cfg s ts

/-- A step of a mouse bind's execution. -/
inductive MouseStep where
  | button (e : MouseEvent)
  | holdTimer (ts : Int)
  | repeatTick (ts : Int)
deriving Repr

/-- State of a run of one mouse bind. -/
structure MouseRunState where
  bind : MouseBindState := {}
  fireLog : List Int := []
deriving Repr

/-- Execute one step of a mouse bind run (the snapshot view is whatever the
backend currently holds; the mouse handler reads it only through predicates). -/
def mouseRunStep (cfg : BindConfig) (button : MouseButton) (env : MousePredEnv)
    (v : InputStateView) (r : MouseRunState) (st : MouseStep) : MouseRunState :=
  match st with
  | MouseStep.button e =>
      let h := MouseBind.handle cfg button env r.bind e v
      ⟨h.state, if h.fired then r.fireLog ++ [e.time] else r.fireLog⟩
  | MouseStep.holdTimer ts =>
      let p := mouseHoldTimerBody cfg ts r.bind
      ⟨p.1, if p.2 then r.fireLog ++ [ts] else r.fireLog⟩
  | MouseStep.repeatTick ts =>
      let p := mouseRepeatTickBody cfg ts r.bind
      ⟨p.1, if p.2 then r.fireLog ++ [ts] else r.fireLog⟩

/-- Run a mouse bind over a stream of steps. -/
def mouseRun (cfg : BindConfig) (button : MouseButton) (env : MousePredEnv)
    (v : InputStateView) (stream : List MouseStep) : MouseRunState :=
  stream.foldl (mouseRunStep cfg button env v) {}

/-! ### Concrete fixtures used by the verification scenarios -/

/-- Environment in which every predicate returns `True`. -/
def kbEnvTrue : KbPredEnv := fun _ _ _ => .ok true

/-- Environment in which every predicate returns `False`. -/
def kbEnvFalse : KbPredEnv := fun _ _ _ => .ok false

/-- Environment in which every predicate raises. -/
def kbEnvRaise : KbPredEnv := fun _ _ _ => .error ()

/-- Mouse environment in which every predicate raises. -/
def mouseEnvRaise : MousePredEnv := fun _ _ _ => .error ()

/-- The parsed steps of `"ctrl+e"`. -/
def ctrlESteps : List ChordSpec := (parseKeyExpr "ctrl+e").toOption.getD []

/-- The parsed steps of `"ctrl+x"`. -/
def ctrlXSteps : List ChordSpec := (parseKeyExpr "ctrl+x").toOption.getD []

/-- `BindConfig(trigger=ON_CHORD_COMPLETE)`, all other fields default. -/
def chordCompleteConfig : BindConfig := { trigger := Trigger.ON_CHORD_COMPLETE }

/-- `Constraints(order_policy=STRICT, allow_os_key_repeat=True)`. -/
def strictRepeatConstraints : Constraints :=
  { order_policy := OrderPolicy.STRICT, allow_os_key_repeat := true }

/-- `BindConfig(trigger=ON_RELEASE, constraints=Constraints(order_policy=STRICT,
allow_os_key_repeat=True))`. -/
def strictReleaseConfig : BindConfig :=
  { trigger := Trigger.ON_RELEASE, constraints := strictRepeatConstraints }

/-- `BindConfig(suppress=ALWAYS, checks=[one predicate])`. -/
def alwaysChecksConfig : BindConfig :=
  { suppress := SuppressPolicy.ALWAYS, checks := ⟨[0]⟩ }

/-- `BindConfig(suppress=ALWAYS)`, all other fields default. -/
def alwaysConfig : BindConfig := { suppress := SuppressPolicy.ALWAYS }

/-- Spec scenario §8.2: `(down,CTRL,0)(down,E,10)(down,E,15)(up,E,20)(down,E,25)`,
all physical; the down at 15 is an OS auto-repeat (E already down). -/
def chordCompleteStream : List KbStep :=
  [KbStep.key ⟨WM_KEYDOWN, VK_CONTROL, 0, false⟩,
   KbStep.key ⟨WM_KEYDOWN, 0x45, 10, false⟩,
   KbStep.key ⟨WM_KEYDOWN, 0x45, 15, false⟩,
   KbStep.key ⟨WM_KEYUP, 0x45, 20, false⟩,
   KbStep.key ⟨WM_KEYDOWN, 0x45, 25, false⟩]

/-- Strict-order violation stream for `ctrl+x`: press ctrl, press x (chord
full), OS-repeat of ctrl (re-press of a locked-prefix group → `invalid`),
release x. -/
def strictReleaseStream : List KbStep :=
  [KbStep.key ⟨WM_KEYDOWN, VK_CONTROL, 0, false⟩,
   KbStep.key ⟨WM_KEYDOWN, 0x58, 10, false⟩,
   KbStep.key ⟨WM_KEYDOWN, VK_CONTROL, 20, false⟩,
   KbStep.key ⟨WM_KEYUP, 0x58, 30, false⟩]

/-- `(down,CTRL,0)(down,E,10)`: one ON_PRESS fire at 10 under the default
config. -/
def onPressFireStream : List KbStep :=
  [KbStep.key ⟨WM_KEYDOWN, VK_CONTROL, 0, false⟩,
   KbStep.key ⟨WM_KEYDOWN, 0x45, 10, false⟩]

/-- A keyboard event used to probe single `handle` calls: physical fresh
ctrl-down at t=5. -/
def probeKeyEvent : KeyboardEvent := ⟨WM_KEYDOWN, VK_CONTROL, 5, false, false⟩

/-- A snapshot view with only ctrl physically pressed. -/
def probeView : InputStateView := ⟨[VK_CONTROL], [VK_CONTROL], []⟩

/-- A mouse event used to probe single `MouseBind.handle` calls: physical
left-button down at t=5. -/
def probeMouseEvent : MouseEvent := ⟨WM_LBUTTONDOWN, 5, false, 0⟩

/-- An empty snapshot view. -/
def emptyView : InputStateView := ⟨[], [], []⟩

/-- `Constraints(order_policy=STRICT)`. -/
def strictOnlyConstraints : Constraints := { order_policy := OrderPolicy.STRICT }

/-- `BindConfig(constraints=Constraints(order_policy=STRICT))` with the default
`ON_PRESS` trigger. -/
def strictPressConfig : BindConfig := { constraints := strictOnlyConstraints }

/-- A strict-order state with the fatal flag set. -/
def invalidStrict : StrictOrderState := { invalid := true }

/-- A bind state whose strict-order sub-machine is already invalid. -/
def invalidBindState : BindState := { strict := invalidStrict }

/-- A one-group chord on ctrl (used to probe single `handle` calls). -/
def probeChord : ChordSpec := ⟨[[VK_CONTROL]], [VK_CONTROL]⟩

/-- The parsed steps of the two-step sequence `"g,k"`. -/
def gkSteps : List ChordSpec := (parseKeyExpr "g,k").toOption.getD []

/-- `Timing(cooldown_ms=100)`, other timings default. -/
def cooldownTiming : Timing := { cooldown_ms := 100 }

/-- `BindConfig(timing=Timing(cooldown_ms=100))`. -/
def cooldownConfig : BindConfig := { timing := cooldownTiming }

/-- Mouse environment in which every predicate returns `True`. -/
def mouseEnvTrue : MousePredEnv := fun _ _ _ => .ok true

/-- A physical left-button click: down at 0, up at 10. -/
def mouseClickStream : List MouseStep :=
  [MouseStep.button ⟨WM_LBUTTONDOWN, 0, false, 0⟩,
   MouseStep.button ⟨WM_LBUTTONUP, 10, false, 0⟩]

/-- A bind state about to evaluate the final step of a two-step sequence. -/
def seqProbeState : BindState := { seq_index := 1 }

/-- A physical fresh k-down at t=5 (completing the final step of `"g,k"`). -/
def seqProbeEvent : KeyboardEvent := ⟨WM_KEYDOWN, 0x4B, 5, false, false⟩

/-- A snapshot view with only k physically pressed. -/
def seqProbeView : InputStateView := ⟨[0x4B], [0x4B], []⟩

/-- The result of raising a predicate, interpreted "as if it returned false"
(`except`-to-`Bool` collapse used to state the predicate-error behaviour). -/
def exceptToBool (r : Except Unit Bool) : Bool :=
  match r with
  | .ok b => b
  | .error _ => false

/-! ### Verification of the claims -/

theorem except_isOk_ok {ε α : Type} (a : α) : (Except.ok a : Except ε α).isOk = true := rfl

theorem except_isOk_error {ε α : Type} (e : ε) :
    (Except.error e : Except ε α).isOk = false := rfl

/-- Helper: `exceptMapList` succeeds exactly when every element maps
successfully. -/
theorem exceptMapList_isOk_iff {α β : Type} (f : α → Except String β) (l : List α) :
    (exceptMapList f l).isOk = true ↔ ∀ x ∈ l, (f x).isOk = true := by
  induction l with
  | nil => simp [exceptMapList, except_isOk_ok]
  | cons hd tl ih =>
      cases hfx : f hd with
      | error e =>
          have hl : exceptMapList f (hd :: tl) = .error e := by
            simp [exceptMapList, hfx]
          rw [hl]
          simp [except_isOk_error, List.forall_mem_cons, hfx]
      | ok y =>
          cases hmx : exceptMapList f tl with
          | error e2 =>
              have hl : exceptMapList f (hd :: tl) = .error e2 := by
                simp [exceptMapList, hfx, hmx]
              rw [hl]
              rw [hmx] at ih
              simp [except_isOk_error] at ih
              simp [except_isOk_error, List.forall_mem_cons, hfx, except_isOk_ok]
              exact ih
          | ok ys =>
              have hl : exceptMapList f (hd :: tl) = .ok (y :: ys) := by
                simp [exceptMapList, hfx, hmx]
              rw [hl]
              rw [hmx] at ih
              simp [except_isOk_ok] at ih
              simp [except_isOk_ok, List.forall_mem_cons, hfx]
              exact ih

/-- Helper: success condition of `parse_chord`. -/
theorem parseChord_isOk_iff (s : List Char) :
    (parseChord s).isOk = true ↔
      (keptTokens s ≠ [] ∧ ∀ t ∈ keptTokens s, (tokenToVkGroup t).isOk = true) := by
  by_cases h : keptTokens s = []
  · simp [parseChord, h, except_isOk_error]
  · have hiff := exceptMapList_isOk_iff tokenToVkGroup (keptTokens s)
    cases hmx : exceptMapList tokenToVkGroup (keptTokens s) with
    | error e =>
        rw [hmx] at hiff
        simp [except_isOk_error] at hiff
        simp [parseChord, h, hmx, except_isOk_error]
        exact hiff
    | ok gs =>
        rw [hmx] at hiff
        simp [except_isOk_ok] at hiff
        simp [parseChord, h, hmx, except_isOk_ok]
        exact hiff

/-- C4 (counterexample): an expression with a doubled `+` separator, and one
with leading/trailing `,` separators, parse successfully — the empty tokens
are silently dropped and the remainder is parsed, contradicting the claim that
such expressions fail with a `ParseError`. -/
theorem parse_silently_drops_empty_tokens :
    (parseKeyExpr "ctrl++e").isOk = true ∧
    parseKeyExpr "ctrl++e" = parseKeyExpr "ctrl+e" ∧
    (parseKeyExpr ",a,").isOk = true ∧
    parseKeyExpr ",a," = parseKeyExpr "a" := by
  refine ⟨by decide, by decide, by decide, by decide⟩

/-- C4 (amended): `parse_key_expr` silently filters out empty (whitespace-only)
sequence steps and chord tokens; it fails exactly when no nonempty step
survives, or some surviving step has no nonempty token, or some surviving
token is unknown. -/
theorem parse_error_characterization (expr : String) :
    (parseKeyExpr expr).isOk = true ↔
      (keptSteps expr.data ≠ [] ∧
        ∀ s ∈ keptSteps expr.data,
          keptTokens s ≠ [] ∧ ∀ t ∈ keptTokens s, (tokenToVkGroup t).isOk = true) := by
  by_cases h : keptSteps expr.data = []
  · simp [parseKeyExpr, parseKeyExprChars, h, except_isOk_error]
  · have hiff := exceptMapList_isOk_iff parseChord (keptSteps expr.data)
    have hsteps : parseKeyExpr expr = exceptMapList parseChord (keptSteps expr.data) := by
      simp [parseKeyExpr, parseKeyExprChars, h]
    rw [hsteps, hiff]
    constructor
    · intro hall
      refine ⟨h, fun s hs => (parseChord_isOk_iff s).mp (hall s hs)⟩
    · intro hall s hs
      exact (parseChord_isOk_iff s).mpr (hall.2 s hs)

/-- C2 (counterexample): after the two-event stream that fires once under the
default config, `reset()` leaves `fires = 1` and `hold_token = 1`, so the
state differs from that of a freshly constructed bind. -/
theorem reset_after_stream_differs_from_fresh :
    Bind.reset (kbRun {} ctrlESteps kbEnvTrue onPressFireStream).bind ≠ BindState.initial ∧
    (Bind.reset (kbRun {} ctrlESteps kbEnvTrue onPressFireStream).bind).fires = 1 ∧
    (Bind.reset (kbRun {} ctrlESteps kbEnvTrue onPressFireStream).bind).hold_token = 1 := by
  refine ⟨by decide, by decide, by decide⟩

/-- C2 (amended): `reset()` restores every trigger-machine field to the value
of a freshly constructed bind, while deliberately incrementing the `hold_token`
generation counter and leaving `fires`, `last_fire_ms` and `last_event_ms`
unchanged. -/
theorem reset_is_fresh_except_counters (s : BindState) :
    Bind.reset s =
      { BindState.initial with
        hold_token := s.hold_token + 1
        fires := s.fires
        last_fire_ms := s.last_fire_ms
        last_event_ms := s.last_event_ms } := rfl

/-- C3 (counterexample): hard merge is right-biased, so merging the
all-defaults config *into* `c` erases `c`'s non-default fields:
`merge_bind_hard(c, BindConfig()) ≠ c` for `c` with a non-default trigger. -/
theorem merge_hard_defaults_counterexample :
    mergeBindHard { trigger := Trigger.ON_RELEASE } DEFAULT_BIND ≠
      ({ trigger := Trigger.ON_RELEASE } : BindConfig) := by decide

/-- C3 (amended): soft merge is idempotent (`merge_bind_soft(c, c) = c`), and
hard merge is a *left* identity on the defaults (`merge_bind_hard(BindConfig(),
c) = c` — the right-hand value always wins). -/
theorem merge_soft_idem_hard_left_identity (c : BindConfig) :
    mergeBindSoft c c = c ∧ mergeBindHard DEFAULT_BIND c = c := by
  obtain ⟨t, sp, ip, fp, tm, cs, ck⟩ := c
  obtain ⟨a1, a2, a3, a4, a5, a6, a7, a8⟩ := tm
  obtain ⟨b1, b2, b3, b4, b5⟩ := cs
  obtain ⟨p⟩ := ck
  exact ⟨by simp [mergeBindSoft, mergeTimingSoft, mergeConstraintsSoft,
                  mergeChecksSoft, ite_self], rfl⟩

/-- C6 (counterexample): under `trigger=ON_CHORD_COMPLETE` on `ctrl+e` with
default policies, the spec stream does *not* produce exactly one fire at
`ts=10`. -/
theorem chord_complete_scenario_counterexample :
    ¬ (kbRun chordCompleteConfig ctrlESteps kbEnvTrue chordCompleteStream).fireLog
        = [(10 : Int)] := by decide

/-- C6 (amended): the stream produces exactly two fires, at `ts=10` and
`ts=25`: the `up` at 20 clears `was_full`, so the re-press at 25 is a fresh
rising edge and fires again; only the OS auto-repeat at 15 is filtered. -/
theorem chord_complete_scenario_fires :
    (kbRun chordCompleteConfig ctrlESteps kbEnvTrue chordCompleteStream).fireLog
      = [(10 : Int), 25] := by decide

/-- C9 (counterexample): a raising predicate on a mouse bind is treated as
`False` and the handler returns `CONTINUE`, but the exception is *not*
swallowed silently: `MouseBind._checks_ok` writes a traceback diagnostic
(`print_exc()`), contradicting "no diagnostic output". -/
theorem mouse_predicate_exception_prints :
    (MouseBind.checksOkRun [0] mouseEnvRaise probeMouseEvent emptyView).2 = 1 ∧
    (MouseBind.checksOkRun [0] mouseEnvRaise probeMouseEvent emptyView).1 = false ∧
    (MouseBind.handle { checks := ⟨[0]⟩ } MouseButton.LEFT mouseEnvRaise {}
        probeMouseEvent emptyView).flags = WP_CONTINUE := by
  refine ⟨by decide, by decide, by decide⟩

/-- C5: `_match_chord` returns `True` iff every group intersects the pressed
set, and additionally: under `RELAXED` no further condition; under
`IGNORE_EXTRA_MODIFIERS` every pressed non-modifier key is in the allowed
union; under `STRICT` every pressed key is in the allowed union or in
`ignore_keys`. -/
theorem match_chord_characterization (cfg : BindConfig) (chord : ChordSpec)
    (pressed : List Nat) :
    matchChord cfg chord pressed = true ↔
      ((∀ g ∈ chord.groups, ∃ vk ∈ g, vk ∈ pressed) ∧
       (cfg.constraints.chord_policy = ChordPolicy.IGNORE_EXTRA_MODIFIERS →
          ∀ vk ∈ pressed, isModifierVk vk = false → vk ∈ chord.allowed_union) ∧
       (cfg.constraints.chord_policy = ChordPolicy.STRICT →
          ∀ vk ∈ pressed, vk ∈ chord.allowed_union ∨ vk ∈ cfg.constraints.ignore_keys)) := by
  have hbase :
      chord.groups.all (fun g => g.any (fun vk => pressed.contains vk)) = true ↔
        ∀ g ∈ chord.groups, ∃ vk ∈ g, vk ∈ pressed := by
    simp [List.all_eq_true, List.any_eq_true, List.elem_iff]
  by_cases hb : chord.groups.all (fun g => g.any (fun vk => pressed.contains vk)) = true
  · cases hpol : cfg.constraints.chord_policy with
    | RELAXED => simp [matchChord, hb, hpol, hbase.mp hb]
    | IGNORE_EXTRA_MODIFIERS =>
        simp [matchChord, hb, hpol, hbase.mp hb, List.all_eq_true, List.elem_iff]
        intro _
        constructor
        · intro hextra vk hvk hmod
          rcases hextra vk hvk with h | h
          · exact h
          · rw [hmod] at h; cases h
        · intro hextra vk hvk
          by_cases hmod : isModifierVk vk = true
          · exact Or.inr hmod
          · exact Or.inl (hextra vk hvk (by simpa using hmod))
    | STRICT =>
        simp [matchChord, hb, hpol, hbase.mp hb, List.all_eq_true, List.elem_iff]
        intro _
        constructor
        · intro hextra vk hvk
          rcases hextra vk hvk with h | h
          · exact Or.inr h
          · exact Or.inl h
        · intro hextra vk hvk
          rcases hextra vk hvk with h | h
          · exact Or.inr h
          · exact Or.inl h
  · have hnb : ¬ ∀ g ∈ chord.groups, ∃ vk ∈ g, vk ∈ pressed := fun hc => hb (hbase.mpr hc)
    simp [matchChord, hb]
    intro hc
    exact absurd hc hnb

/-- C9 (amended): a predicate that raises is treated exactly as if it returned
`False` — the short-circuit result equals the AND over the raise-as-false
collapse of each call, and when the checks gate fails both handlers return
their state unchanged with `CONTINUE` and zero flags.  Keyboard binds swallow
the exception silently (`BaseBind._checks_ok` emits no diagnostic); mouse
binds print a traceback diagnostic first (`MouseBind._checks_ok`). -/
theorem predicate_exception_as_false :
    (∀ {α : Type} (preds : List Nat) (env : Nat → α → InputStateView → Except Unit Bool)
        (e : α) (v : InputStateView),
        BaseBind.checksOkRun preds env e v =
          (preds.all (fun p => exceptToBool (env p e v)), 0) ∧
        (MouseBind.checksOkRun preds env e v).1 =
          preds.all (fun p => exceptToBool (env p e v))) ∧
    (∀ (cfg : BindConfig) (steps : List ChordSpec) (env : KbPredEnv) (s : BindState)
        (e : KeyboardEvent) (v : InputStateView),
        cfg.checks.predicates ≠ [] →
        (BaseBind.checksOkRun cfg.checks.predicates env e v).1 = false →
        Bind.handle cfg steps env s e v = ⟨s, false, WP_CONTINUE⟩) ∧
    (∀ (cfg : BindConfig) (button : MouseButton) (env : MousePredEnv)
        (s : MouseBindState) (e : MouseEvent) (v : InputStateView),
        cfg.checks.predicates ≠ [] →
        (MouseBind.checksOkRun cfg.checks.predicates env e v).1 = false →
        MouseBind.handle cfg button env s e v = ⟨s, false, WP_CONTINUE⟩) := by
  refine ⟨fun {α} preds env e v => ?_, fun cfg steps env s e v h1 h2 => ?_,
          fun cfg button env s e v h1 h2 => ?_⟩
  · induction preds with
    | nil => exact ⟨rfl, rfl⟩
    | cons hd tl ih =>
        cases henv : env hd e v with
        | error u =>
            simp [BaseBind.checksOkRun, MouseBind.checksOkRun, henv, exceptToBool]
        | ok b =>
            cases b with
            | false =>
                simp [BaseBind.checksOkRun, MouseBind.checksOkRun, henv, exceptToBool]
            | true =>
                simp [BaseBind.checksOkRun, MouseBind.checksOkRun, henv, exceptToBool,
                      ih.1, ih.2]
  · simp [Bind.handle, h1, h2]
  · simp [MouseBind.handle, h1, h2]

/-- C9 (witness): the amended behaviour at a raising predicate on concrete
inputs. -/
theorem predicate_exception_as_false_witness :
    (BaseBind.checksOkRun [0] kbEnvRaise probeKeyEvent probeView =
      ([0].all (fun p => exceptToBool (kbEnvRaise p probeKeyEvent probeView)), 0)) ∧
    Bind.handle alwaysChecksConfig ctrlESteps kbEnvRaise BindState.initial
        probeKeyEvent probeView = ⟨BindState.initial, false, WP_CONTINUE⟩ := by
  refine ⟨(predicate_exception_as_false.1 [0] kbEnvRaise probeKeyEvent probeView).1,
          predicate_exception_as_false.2.1 alwaysChecksConfig ctrlESteps kbEnvRaise
            BindState.initial probeKeyEvent probeView (by decide) (by decide)⟩

/-- C1 (amended): for `suppress = ALWAYS`, every event that reaches the
suppression verdict — i.e. passes the focus, predicate, debounce and
injected-filter gates — returns `DONT_PASS_INPUT_ON`, regardless of match
outcome, trigger branch or strict-order state.  Events stopped by a gate
return `CONTINUE` with zero flags. -/
theorem always_suppress_after_gates (cfg : BindConfig) (steps : List ChordSpec)
    (env : KbPredEnv) (s : BindState) (e : KeyboardEvent) (v : InputStateView)
    (h1 : cfg.suppress = SuppressPolicy.ALWAYS)
    (h2 : cfg.checks.predicates = [] ∨
          (BaseBind.checksOkRun cfg.checks.predicates env e v).1 = true)
    (h3 : debounceOk cfg s e.time = true)
    (h4 : ¬ ((cfg.injected = InjectedPolicy.IGNORE ∧ e.injected = true) ∨
             (cfg.injected = InjectedPolicy.ONLY ∧ e.injected = false))) :
    (Bind.handle cfg steps env s e v).flags = WP_DONT_PASS_INPUT_ON := by
  have hc1 : (cfg.checks.predicates ≠ [] &&
      !(BaseBind.checksOkRun cfg.checks.predicates env e v).1) = false := by
    rcases h2 with h | h <;> simp [h]
  have hinj : ((cfg.injected = InjectedPolicy.IGNORE && e.injected) ||
      (cfg.injected = InjectedPolicy.ONLY && !e.injected)) = false := by
    cases hI : cfg.injected <;> cases hei : e.injected <;> simp_all
  rw [Bind.handle]
  simp only [hc1, h3, hinj, Bool.false_eq_true, if_false, Bool.not_true,
    Bool.false_and, Bool.or_self, if_neg]
  rw [handleCore]
  simp only [h1]
  split <;> simp [suppressFlagsBase, h1]

/-- C1 (witness): the amended theorem at a concrete gated-through event. -/
theorem always_suppress_after_gates_witness :
    (Bind.handle alwaysConfig ctrlESteps kbEnvTrue BindState.initial probeKeyEvent
        probeView).flags = WP_DONT_PASS_INPUT_ON :=
  always_suppress_after_gates alwaysConfig ctrlESteps kbEnvTrue BindState.initial
    probeKeyEvent probeView rfl (Or.inl rfl) (by decide) (by decide)

/-- C1 (counterexample): with `suppress = ALWAYS` and a predicate that returns
`False`, the event delivered to `Bind.handle` returns `CONTINUE` — the result
does *not* contain `DONT_PASS_INPUT_ON`, because the predicate gate returns
before the suppression verdict. -/
theorem always_suppress_counterexample :
    (Bind.handle alwaysChecksConfig ctrlESteps kbEnvFalse BindState.initial
        probeKeyEvent probeView).flags = WP_CONTINUE ∧
    (Bind.handle alwaysChecksConfig ctrlESteps kbEnvFalse BindState.initial
        probeKeyEvent probeView).flags &&& WP_DONT_PASS_INPUT_ON = 0 := by
  refine ⟨by decide, by decide⟩

/-- C7 (counterexample): `ctrl+x`, `order_policy=STRICT`,
`trigger=ON_RELEASE`, `allow_os_key_repeat=True`.  After (down ctrl, down x),
the chord is full and `release_armed` is set; the OS-repeat of ctrl at t=20 is
a re-press of a locked-prefix group and sets `invalid` (no fire yet); the
subsequent (up x) at t=30 nevertheless fires, while ctrl is still pressed —
the cycle has not closed.  This contradicts the claim for trigger kind
ON_RELEASE. -/
theorem strict_order_release_counterexample :
    (kbRun strictReleaseConfig ctrlXSteps kbEnvTrue
        (strictReleaseStream.take 3)).bind.strict.invalid = true ∧
    (kbRun strictReleaseConfig ctrlXSteps kbEnvTrue
        (strictReleaseStream.take 3)).fireLog = [] ∧
    (kbRun strictReleaseConfig ctrlXSteps kbEnvTrue
        strictReleaseStream).fireLog = [(30 : Int)] ∧
    (kbRun strictReleaseConfig ctrlXSteps kbEnvTrue
        strictReleaseStream).bind.strict.invalid = true ∧
    (kbRun strictReleaseConfig ctrlXSteps kbEnvTrue
        strictReleaseStream).backend.pressed_keys.contains VK_CONTROL = true := by
  refine ⟨by decide, by decide, by decide, by decide, by decide⟩

/-- Helper: `on_event` returns immediately once `invalid` is set. -/
theorem StrictOrderState.onEvent_of_invalid (s : StrictOrderState) (chord : ChordSpec)
    (pressed : List Nat) (vkEvt : Nat) (iu fd rc : Bool) (h : s.invalid = true) :
    s.onEvent chord pressed vkEvt iu fd rc = s := by
  simp [StrictOrderState.onEvent, h]

/-- C7 (amended): for `order_policy = STRICT` on a single-chord bind whose
trigger requires a current chord match at fire time (ON_PRESS,
ON_CHORD_COMPLETE, ON_DOUBLE_TAP), once `invalid` is set no callback is
submitted by any event, and the strict-order state stays invalid except when
the event closes the cycle (which resets it).  Triggers that fire from arming
recorded before the violation (ON_RELEASE, ON_CHORD_RELEASED, ON_CLICK,
ON_HOLD, ON_REPEAT) are not covered: ON_RELEASE can still fire, as the
counterexample shows. -/
theorem strict_invalid_blocks_match_triggers (cfg : BindConfig) (chord : ChordSpec)
    (env : KbPredEnv) (s : BindState) (e : KeyboardEvent) (v : InputStateView)
    (h1 : cfg.constraints.order_policy = OrderPolicy.STRICT)
    (h2 : cfg.trigger ∈ ([Trigger.ON_PRESS, Trigger.ON_CHORD_COMPLETE,
        Trigger.ON_DOUBLE_TAP] : List Trigger))
    (h3 : s.strict.invalid = true) :
    (Bind.handle cfg [chord] env s e v).fired = false ∧
    ((Bind.handle cfg [chord] env s e v).state.strict.invalid = true ∨
      (Bind.handle cfg [chord] env s e v).state.strict = StrictOrderState.init) := by
  have hstrictOrd : isStrictOrder cfg = true := by simp [isStrictOrder, h1]
  have hsto : stepTimeoutOk cfg [chord] s e.time = true := by simp [stepTimeoutOk]
  have hgs : gateState cfg [chord] s e.time = { s with last_event_ms := e.time } := by
    simp [gateState, hsto]
  have hinv1 : (gateState cfg [chord] s e.time).strict.invalid = true := by
    rw [hgs]; exact h3
  have hon : ∀ c p, strictStep cfg c p e (gateState cfg [chord] s e.time).strict =
      (gateState cfg [chord] s e.time).strict := by
    intro c p
    simp [strictStep, StrictOrderState.onEvent_of_invalid _ c p _ _ _ _ hinv1]
  have hallow : ∀ c p r,
      ((gateState cfg [chord] s e.time).strict.allowsFull c p r) = false := by
    intro c p r
    simp [StrictOrderState.allowsFull, hinv1]
  have hfull : ∀ c p,
      evalFullAfter cfg c p (gateState cfg [chord] s e.time).strict = false := by
    intro c p
    cases hm : matchChord cfg c p <;>
      simp [evalFullAfter, hstrictOrd, hallow, hm]
  have htstep : ∀ (now : Int) (vkEvt : Nat) (d u fd pf ap : Bool) (s2 : BindState)
      (c : ChordSpec),
      triggerStep cfg c now vkEvt d u fd false pf ap s2 = (s2, false) := by
    intro now vkEvt d u fd pf ap s2 c
    have h2x : cfg.trigger = Trigger.ON_PRESS ∨ cfg.trigger = Trigger.ON_CHORD_COMPLETE ∨
        cfg.trigger = Trigger.ON_DOUBLE_TAP := by simpa using h2
    rcases h2x with ht | ht | ht <;> simp [triggerStep, ht]
  rw [Bind.handle]
  split
  · exact ⟨rfl, Or.inl h3⟩
  · split
    · exact ⟨rfl, Or.inl h3⟩
    · split
      · exact ⟨rfl, Or.inl hinv1⟩
      · rw [handleCore]
        simp only [hon, hfull, htstep, List.length_cons, List.length_nil,
          Bool.false_and, Bool.and_false, Bool.false_eq_true, if_false,
          Nat.lt_irrefl, gt_iff_lt]
        split <;> simp [hinv1]

/-- C7 (witness): the amended theorem at a concrete invalid state. -/
theorem strict_invalid_blocks_match_triggers_witness :
    (Bind.handle strictPressConfig [probeChord] kbEnvTrue invalidBindState
        probeKeyEvent probeView).fired = false ∧
    ((Bind.handle strictPressConfig [probeChord] kbEnvTrue invalidBindState
        probeKeyEvent probeView).state.strict.invalid = true ∨
      (Bind.handle strictPressConfig [probeChord] kbEnvTrue invalidBindState
        probeKeyEvent probeView).state.strict = StrictOrderState.init) :=
  strict_invalid_blocks_match_triggers strictPressConfig probeChord kbEnvTrue
    invalidBindState probeKeyEvent probeView rfl (by decide) rfl

/-- C10: for a sequence bind (more than one chord step), a callback is
submitted only on a fresh key-down that completes the final step while the
step's chord is full, and only when the trigger is ON_SEQUENCE, ON_PRESS or
ON_CHORD_COMPLETE; any other trigger never submits a callback. -/
theorem sequence_fire_characterization (cfg : BindConfig) (steps : List ChordSpec)
    (env : KbPredEnv) (s : BindState) (e : KeyboardEvent) (v : InputStateView)
    (hseq : steps.length > 1) :
    (Bind.handle cfg steps env s e v).fired = true →
      cfg.trigger ∈ ([Trigger.ON_SEQUENCE, Trigger.ON_PRESS,
          Trigger.ON_CHORD_COMPLETE] : List Trigger) ∧
      freshDown cfg e = true ∧
      (gateState cfg steps s e.time).seq_index = steps.length - 1 ∧
      evalFullAfter cfg (steps.getD (gateState cfg steps s e.time).seq_index ⟨[], []⟩)
        (pressedDomain cfg e v)
        (strictStep cfg (steps.getD (gateState cfg steps s e.time).seq_index ⟨[], []⟩)
          (pressedDomain cfg e v) e (gateState cfg steps s e.time).strict) = true := by
  rw [Bind.handle]
  split
  · intro hf; exact absurd hf (by simp)
  · split
    · intro hf; exact absurd hf (by simp)
    · split
      · intro hf; exact absurd hf (by simp)
      · rw [handleCore]
        simp only [if_pos hseq]
        intro hf
        split at hf
        case isTrue hcond =>
          have hfull : evalFullAfter cfg
              (steps.getD (gateState cfg steps s e.time).seq_index ⟨[], []⟩)
              (pressedDomain cfg e v)
              (strictStep cfg (steps.getD (gateState cfg steps s e.time).seq_index ⟨[], []⟩)
                (pressedDomain cfg e v) e (gateState cfg steps s e.time).strict) = true :=
            (Bool.and_eq_true .. ▸ hcond).1
          have hfd : freshDown cfg e = true := (Bool.and_eq_true .. ▸ hcond).2
          split at hf
          case isTrue hidx =>
            split at hf
            case isTrue htrig =>
              refine ⟨by simpa using htrig, hfd, by simpa using hidx, hfull⟩
            case isFalse htrig =>
              exact absurd hf (by simp)
          case isFalse hidx =>
            exact absurd hf (by simp)
        case isFalse hcond =>
          exact absurd hf (by simp)

/-- C10 (witness): the characterization instantiated on the `g,k` sequence
with the default config, at a fresh k-down that completes the final step (the
handler fires there). -/
theorem sequence_fire_characterization_witness :
    ({} : BindConfig).trigger ∈ ([Trigger.ON_SEQUENCE, Trigger.ON_PRESS,
        Trigger.ON_CHORD_COMPLETE] : List Trigger) ∧
    freshDown {} seqProbeEvent = true ∧
    (gateState {} gkSteps seqProbeState seqProbeEvent.time).seq_index =
      gkSteps.length - 1 ∧
    evalFullAfter {}
      (gkSteps.getD (gateState {} gkSteps seqProbeState
        seqProbeEvent.time).seq_index ⟨[], []⟩)
      (pressedDomain {} seqProbeEvent seqProbeView)
      (strictStep {}
        (gkSteps.getD (gateState {} gkSteps seqProbeState
          seqProbeEvent.time).seq_index ⟨[], []⟩)
        (pressedDomain {} seqProbeEvent seqProbeView) seqProbeEvent
        (gateState {} gkSteps seqProbeState seqProbeEvent.time).strict) = true :=
  sequence_fire_characterization {} gkSteps kbEnvTrue seqProbeState seqProbeEvent
    seqProbeView (by decide) (by decide)

/-- Helper: the two outcomes of the keyboard `fire_if_allowed` gate. -/
theorem fireIfAllowed_cases (cfg : BindConfig) (s : BindState) (ts : Int) :
    fireIfAllowed cfg s ts = (s, false) ∨
    (fireIfAllowed cfg s ts =
        ({ s with fires := s.fires + 1, last_fire_ms := ts }, true) ∧
      (cfg.timing.cooldown_ms ≤ 0 ∨ ts - s.last_fire_ms ≥ cfg.timing.cooldown_ms)) := by
  unfold fireIfAllowed
  split
  case isTrue h =>
    right
    refine ⟨rfl, ?_⟩
    have hc := ((Bool.and_eq_true _ _).mp h).1
    simpa [cooldownOk, Bool.or_eq_true, decide_eq_true_eq] using hc
  case isFalse h => left; rfl

/-- Helper: a successful fire records its timestamp and passed the cooldown
gate against the previous `last_fire_ms`. -/
theorem fireIfAllowed_fired_spec (cfg : BindConfig) (s : BindState) (ts : Int)
    (h : (fireIfAllowed cfg s ts).2 = true) :
    (fireIfAllowed cfg s ts).1.last_fire_ms = ts ∧
      (cfg.timing.cooldown_ms ≤ 0 ∨ ts - s.last_fire_ms ≥ cfg.timing.cooldown_ms) := by
  rcases fireIfAllowed_cases cfg s ts with hh | ⟨hh, hcd⟩
  · rw [hh] at h; cases h
  · rw [hh]; exact ⟨rfl, hcd⟩

/-- Helper: a refused fire leaves `last_fire_ms` unchanged. -/
theorem fireIfAllowed_unfired_spec (cfg : BindConfig) (s : BindState) (ts : Int)
    (h : (fireIfAllowed cfg s ts).2 = false) :
    (fireIfAllowed cfg s ts).1.last_fire_ms = s.last_fire_ms := by
  rcases fireIfAllowed_cases cfg s ts with hh | ⟨hh, hcd⟩
  · rw [hh]
  · rw [hh] at h; cases h

/-- Helper: every fire of the single-chord trigger branch happens at `now`,
passed the cooldown gate, and recorded its timestamp. -/
theorem triggerStep_fire_spec (cfg : BindConfig) (chord : ChordSpec) (now : Int)
    (vkEvt : Nat) (d u fd fl pf ap : Bool) (s : BindState) :
    ((triggerStep cfg chord now vkEvt d u fd fl pf ap s).2 = true →
      (triggerStep cfg chord now vkEvt d u fd fl pf ap s).1.last_fire_ms = now ∧
      (cfg.timing.cooldown_ms ≤ 0 ∨
        now - s.last_fire_ms ≥ cfg.timing.cooldown_ms)) ∧
    ((triggerStep cfg chord now vkEvt d u fd fl pf ap s).2 = false →
      (triggerStep cfg chord now vkEvt d u fd fl pf ap s).1.last_fire_ms
        = s.last_fire_ms) := by
  cases htr : cfg.trigger <;> simp only [triggerStep, htr]
  case ON_PRESS =>
    split
    · exact ⟨fun hf => fireIfAllowed_fired_spec cfg _ now hf,
             fun hf => fireIfAllowed_unfired_spec cfg _ now hf⟩
    · simp
  case ON_CHORD_COMPLETE =>
    split
    · exact ⟨fun hf => fireIfAllowed_fired_spec cfg _ now hf,
             fun hf => fireIfAllowed_unfired_spec cfg _ now hf⟩
    · simp
  case ON_RELEASE =>
    split
    · exact ⟨fun hf => fireIfAllowed_fired_spec cfg _ now hf,
             fun hf => fireIfAllowed_unfired_spec cfg _ now hf⟩
    · simp
  case ON_CHORD_RELEASED =>
    split
    · exact ⟨fun hf => fireIfAllowed_fired_spec cfg _ now hf,
             fun hf => fireIfAllowed_unfired_spec cfg _ now hf⟩
    · simp
  case ON_CLICK =>
    split
    · simp
    · split
      · split
        · split
          · exact ⟨fun hf => fireIfAllowed_fired_spec cfg _ now hf,
                   fun hf => fireIfAllowed_unfired_spec cfg _ now hf⟩
          · simp
        · simp
      · simp
  case ON_HOLD =>
    split <;> simp
  case ON_REPEAT =>
    split <;> simp
  case ON_DOUBLE_TAP =>
    split
    · split
      · split
        · exact ⟨fun hf => fireIfAllowed_fired_spec cfg _ now hf,
                 fun hf => fireIfAllowed_unfired_spec cfg _ now hf⟩
        · simp
      · split
        · exact ⟨fun hf => fireIfAllowed_fired_spec cfg _ now hf,
                 fun hf => fireIfAllowed_unfired_spec cfg _ now hf⟩
        · simp
    · simp
  case ON_SEQUENCE => simp

/-- Helper: `handleCore` fire/no-fire effect on `last_fire_ms`. -/
theorem handleCore_fire_spec (cfg : BindConfig) (steps : List ChordSpec)
    (s1 : BindState) (e : KeyboardEvent) (v : InputStateView) :
    ((handleCore cfg steps s1 e v).fired = true →
      (handleCore cfg steps s1 e v).state.last_fire_ms = e.time ∧
      (cfg.timing.cooldown_ms ≤ 0 ∨
        e.time - s1.last_fire_ms ≥ cfg.timing.cooldown_ms)) ∧
    ((handleCore cfg steps s1 e v).fired = false →
      (handleCore cfg steps s1 e v).state.last_fire_ms = s1.last_fire_ms) := by
  rw [handleCore]
  split
  · dsimp only
    repeat' split
    all_goals
      first
        | exact ⟨fun hf => fireIfAllowed_fired_spec cfg _ e.time hf,
                 fun hf => fireIfAllowed_unfired_spec cfg _ e.time hf⟩
        | exact ⟨fun hf => absurd hf (by simp), fun hf => rfl⟩
  · dsimp only
    repeat' split
    all_goals
      exact ⟨fun hf => (triggerStep_fire_spec cfg _ _ _ _ _ _ _ _ _ _).1 hf,
             fun hf => (triggerStep_fire_spec cfg _ _ _ _ _ _ _ _ _ _).2 hf⟩

/-- Helper: `Bind.handle` fire/no-fire effect on `last_fire_ms` (the gates
never touch it). -/
theorem handle_fire_spec (cfg : BindConfig) (steps : List ChordSpec) (env : KbPredEnv)
    (s : BindState) (e : KeyboardEvent) (v : InputStateView) :
    ((Bind.handle cfg steps env s e v).fired = true →
      (Bind.handle cfg steps env s e v).state.last_fire_ms = e.time ∧
      (cfg.timing.cooldown_ms ≤ 0 ∨
        e.time - s.last_fire_ms ≥ cfg.timing.cooldown_ms)) ∧
    ((Bind.handle cfg steps env s e v).fired = false →
      (Bind.handle cfg steps env s e v).state.last_fire_ms = s.last_fire_ms) := by
  have hg : (gateState cfg steps s e.time).last_fire_ms = s.last_fire_ms := by
    rw [gateState]
    dsimp only
    split <;> rfl
  rw [Bind.handle]
  dsimp only
  split
  · exact ⟨fun hf => absurd hf (by simp), fun _ => rfl⟩
  · split
    · exact ⟨fun hf => absurd hf (by simp), fun _ => rfl⟩
    · split
      · exact ⟨fun hf => absurd hf (by simp), fun _ => hg⟩
      · have hc := handleCore_fire_spec cfg steps (gateState cfg steps s e.time) e v
        rw [hg] at hc
        exact hc

/-- Helper: the `_hold` timer body's fire effect. -/
theorem holdTimer_fire_spec (cfg : BindConfig) (token : Nat) (chord0 : ChordSpec)
    (pressed0 : List Nat) (ts : Int) (s : BindState) :
    ((holdTimerBody cfg token chord0 pressed0 ts s).2 = true →
      (holdTimerBody cfg token chord0 pressed0 ts s).1.last_fire_ms = ts ∧
      (cfg.timing.cooldown_ms ≤ 0 ∨
        ts - s.last_fire_ms ≥ cfg.timing.cooldown_ms)) ∧
    ((holdTimerBody cfg token chord0 pressed0 ts s).2 = false →
      (holdTimerBody cfg token chord0 pressed0 ts s).1.last_fire_ms
        = s.last_fire_ms) := by
  rw [holdTimerBody]
  repeat' split
  all_goals
    first
      | exact ⟨fun hf => fireIfAllowed_fired_spec cfg _ ts hf,
               fun hf => fireIfAllowed_unfired_spec cfg _ ts hf⟩
      | exact ⟨fun hf => absurd hf (by simp), fun _ => rfl⟩

/-- Helper: one `_repeat` iteration's fire effect. -/
theorem repeatTick_fire_spec (cfg : BindConfig) (chord0 : ChordSpec)
    (pressed0 : List Nat) (ts : Int) (s : BindState) :
    ((repeatTickBody cfg chord0 pressed0 ts s).2 = true →
      (repeatTickBody cfg chord0 pressed0 ts s).1.last_fire_ms = ts ∧
      (cfg.timing.cooldown_ms ≤ 0 ∨
        ts - s.last_fire_ms ≥ cfg.timing.cooldown_ms)) ∧
    ((repeatTickBody cfg chord0 pressed0 ts s).2 = false →
      (repeatTickBody cfg chord0 pressed0 ts s).1.last_fire_ms = s.last_fire_ms) := by
  rw [repeatTickBody]
  repeat' split
  all_goals
    first
      | exact ⟨fun hf => fireIfAllowed_fired_spec cfg _ ts hf,
               fun hf => fireIfAllowed_unfired_spec cfg _ ts hf⟩
      | exact ⟨fun hf => absurd hf (by simp), fun _ => rfl⟩

/-- Helper: every keyboard run step either leaves the fire log and
`last_fire_ms` unchanged, or appends one timestamp that passed the cooldown
gate. -/
theorem kbRunStep_fire_spec (cfg : BindConfig) (steps : List ChordSpec)
    (env : KbPredEnv) (r : KbRunState) (st : KbStep) :
    ((kbRunStep cfg steps env r st).fireLog = r.fireLog ∧
      (kbRunStep cfg steps env r st).bind.last_fire_ms = r.bind.last_fire_ms) ∨
    (∃ ts, (kbRunStep cfg steps env r st).fireLog = r.fireLog ++ [ts] ∧
      (kbRunStep cfg steps env r st).bind.last_fire_ms = ts ∧
      (cfg.timing.cooldown_ms ≤ 0 ∨
        ts - r.bind.last_fire_ms ≥ cfg.timing.cooldown_ms)) := by
  cases st with
  | key raw =>
      have hsp := handle_fire_spec cfg steps env r.bind
        (backendOnKeyboard r.backend raw).2.1 (backendOnKeyboard r.backend raw).2.2
      cases hf : (Bind.handle cfg steps env r.bind (backendOnKeyboard r.backend raw).2.1
          (backendOnKeyboard r.backend raw).2.2).fired with
      | false =>
          left
          refine ⟨?_, ?_⟩
          · simp only [kbRunStep, hf]
            simp
          · simp only [kbRunStep]
            exact hsp.2 hf
      | true =>
          right
          refine ⟨(backendOnKeyboard r.backend raw).2.1.time, ?_, ?_, (hsp.1 hf).2⟩
          · simp only [kbRunStep, hf]
            simp
          · simp only [kbRunStep]
            exact (hsp.1 hf).1
  | holdTimer token chord0 pressed0 ts =>
      have hsp := holdTimer_fire_spec cfg token chord0 pressed0 ts r.bind
      cases hf : (holdTimerBody cfg token chord0 pressed0 ts r.bind).2 with
      | false =>
          left
          refine ⟨?_, ?_⟩
          · simp only [kbRunStep, hf]
            simp
          · simp only [kbRunStep]
            exact hsp.2 hf
      | true =>
          right
          refine ⟨ts, ?_, ?_, (hsp.1 hf).2⟩
          · simp only [kbRunStep, hf]
            simp
          · simp only [kbRunStep]
            exact (hsp.1 hf).1
  | repeatTick chord0 pressed0 ts =>
      have hsp := repeatTick_fire_spec cfg chord0 pressed0 ts r.bind
      cases hf : (repeatTickBody cfg chord0 pressed0 ts r.bind).2 with
      | false =>
          left
          refine ⟨?_, ?_⟩
          · simp only [kbRunStep, hf]
            simp
          · simp only [kbRunStep]
            exact hsp.2 hf
      | true =>
          right
          refine ⟨ts, ?_, ?_, (hsp.1 hf).2⟩
          · simp only [kbRunStep, hf]
            simp
          · simp only [kbRunStep]
            exact (hsp.1 hf).1

/-- Helper: folding any step function whose every step either preserves the
fire log or appends a cooldown-gated timestamp keeps the log
cooldown-separated. -/
theorem fold_fire_chain {σ τ : Type} (c : Int) (f : σ → τ → σ)
    (log : σ → List Int) (lf : σ → Int)
    (hstep : ∀ (r : σ) (st : τ),
      (log (f r st) = log r ∧ lf (f r st) = lf r) ∨
      (∃ ts, log (f r st) = log r ++ [ts] ∧ lf (f r st) = ts ∧
        (c ≤ 0 ∨ ts - lf r ≥ c)))
    (hc : 0 < c) :
    ∀ (stream : List τ) (r : σ),
      List.Chain' (fun t1 t2 => t1 < t2 ∧ c ≤ t2 - t1) (log r) →
      (∀ t, (log r).getLast? = some t → t ≤ lf r) →
      List.Chain' (fun t1 t2 => t1 < t2 ∧ c ≤ t2 - t1) (log (stream.foldl f r)) ∧
      (∀ t, (log (stream.foldl f r)).getLast? = some t → t ≤ lf (stream.foldl f r)) := by
  intro stream
  induction stream with
  | nil => intro r h1 h2; exact ⟨h1, h2⟩
  | cons st rest ih =>
      intro r h1 h2
      rw [List.foldl_cons]
      rcases hstep r st with ⟨hl, hf⟩ | ⟨ts, hl, hf, hcd⟩
      · exact ih (f r st) (hl ▸ h1) (by rw [hl, hf]; exact h2)
      · have hcd2 : c ≤ ts - lf r := by
          rcases hcd with h | h
          · omega
          · exact h
        refine ih (f r st) ?_ ?_
        · rw [hl]
          rw [List.chain'_append]
          refine ⟨h1, List.chain'_singleton _, ?_⟩
          intro x hx y hy
          simp only [List.head?_cons, Option.mem_def, Option.some.injEq] at hy
          subst hy
          have hxle := h2 x hx
          constructor <;> omega
        · intro t ht
          rw [hl] at ht
          rw [List.getLast?_append_cons] at ht
          simp only [List.getLast?_singleton, Option.some.injEq] at ht
          subst ht
          rw [hf]

/-- Helper: the two outcomes of the mouse `fire_if_allowed` gate. -/
theorem mouseFireIfAllowed_cases (cfg : BindConfig) (s : MouseBindState) (ts : Int) :
    mouseFireIfAllowed cfg s ts = (s, false) ∨
    (mouseFireIfAllowed cfg s ts =
        ({ s with fires := s.fires + 1, last_fire_ms := ts }, true) ∧
      (cfg.timing.cooldown_ms ≤ 0 ∨ ts - s.last_fire_ms ≥ cfg.timing.cooldown_ms)) := by
  unfold mouseFireIfAllowed
  split
  case isTrue h =>
    right
    refine ⟨rfl, ?_⟩
    have hc := ((Bool.and_eq_true _ _).mp h).1
    simpa [mouseCooldownOk, Bool.or_eq_true, decide_eq_true_eq] using hc
  case isFalse h => left; rfl

/-- Helper: mouse analogue of `fireIfAllowed_fired_spec`. -/
theorem mouseFireIfAllowed_fired_spec (cfg : BindConfig) (s : MouseBindState)
    (ts : Int) (h : (mouseFireIfAllowed cfg s ts).2 = true) :
    (mouseFireIfAllowed cfg s ts).1.last_fire_ms = ts ∧
      (cfg.timing.cooldown_ms ≤ 0 ∨ ts - s.last_fire_ms ≥ cfg.timing.cooldown_ms) := by
  rcases mouseFireIfAllowed_cases cfg s ts with hh | ⟨hh, hcd⟩
  · rw [hh] at h; cases h
  · rw [hh]; exact ⟨rfl, hcd⟩

/-- Helper: mouse analogue of `fireIfAllowed_unfired_spec`. -/
theorem mouseFireIfAllowed_unfired_spec (cfg : BindConfig) (s : MouseBindState)
    (ts : Int) (h : (mouseFireIfAllowed cfg s ts).2 = false) :
    (mouseFireIfAllowed cfg s ts).1.last_fire_ms = s.last_fire_ms := by
  rcases mouseFireIfAllowed_cases cfg s ts with hh | ⟨hh, hcd⟩
  · rw [hh]
  · rw [hh] at h; cases h

/-- Helper: the armed/repeat bookkeeping never touches `last_fire_ms`. -/
theorem mouseArmUpdate_last_fire (d u : Bool) (s : MouseBindState) :
    (mouseArmUpdate d u s).last_fire_ms = s.last_fire_ms := by
  rw [mouseArmUpdate]
  split
  · rfl
  · split <;> rfl

/-- Helper: mouse trigger-branch fire effect. -/
theorem mouseTriggerStep_fire_spec (cfg : BindConfig) (now : Int) (d u : Bool)
    (s1 : MouseBindState) :
    ((mouseTriggerStep cfg now d u s1).2 = true →
      (mouseTriggerStep cfg now d u s1).1.last_fire_ms = now ∧
      (cfg.timing.cooldown_ms ≤ 0 ∨
        now - s1.last_fire_ms ≥ cfg.timing.cooldown_ms)) ∧
    ((mouseTriggerStep cfg now d u s1).2 = false →
      (mouseTriggerStep cfg now d u s1).1.last_fire_ms = s1.last_fire_ms) := by
  cases htr : cfg.trigger <;> simp only [mouseTriggerStep, htr]
  all_goals
    repeat' split
  all_goals
    first
      | exact ⟨fun hf => mouseFireIfAllowed_fired_spec cfg _ now hf,
               fun hf => mouseFireIfAllowed_unfired_spec cfg _ now hf⟩
      | simp

/-- Helper: `MouseBind.handle` fire/no-fire effect on `last_fire_ms`. -/
theorem mouseHandle_fire_spec (cfg : BindConfig) (button : MouseButton)
    (env : MousePredEnv) (s : MouseBindState) (e : MouseEvent) (v : InputStateView) :
    ((MouseBind.handle cfg button env s e v).fired = true →
      (MouseBind.handle cfg button env s e v).state.last_fire_ms = e.time ∧
      (cfg.timing.cooldown_ms ≤ 0 ∨
        e.time - s.last_fire_ms ≥ cfg.timing.cooldown_ms)) ∧
    ((MouseBind.handle cfg button env s e v).fired = false →
      (MouseBind.handle cfg button env s e v).state.last_fire_ms
        = s.last_fire_ms) := by
  rw [MouseBind.handle]
  split
  · exact ⟨fun hf => absurd hf (by simp), fun _ => rfl⟩
  · split
    · exact ⟨fun hf => absurd hf (by simp), fun _ => rfl⟩
    · split
      · exact ⟨fun hf => absurd hf (by simp), fun _ => rfl⟩
      · dsimp only
        split
        · exact ⟨fun hf => absurd hf (by simp), fun _ => rfl⟩
        · refine ⟨fun hf => ?_, fun hf => ?_⟩
          · have h := (mouseTriggerStep_fire_spec cfg e.time _ _ _).1 hf
            have h2 := h.2
            rw [mouseArmUpdate_last_fire] at h2
            exact ⟨h.1, h2⟩
          · have h := (mouseTriggerStep_fire_spec cfg e.time _ _ _).2 hf
            rw [mouseArmUpdate_last_fire] at h
            exact h

/-- Helper: the mouse `_hold` timer body's fire effect. -/
theorem mouseHoldTimer_fire_spec (cfg : BindConfig) (ts : Int) (s : MouseBindState) :
    ((mouseHoldTimerBody cfg ts s).2 = true →
      (mouseHoldTimerBody cfg ts s).1.last_fire_ms = ts ∧
      (cfg.timing.cooldown_ms ≤ 0 ∨
        ts - s.last_fire_ms ≥ cfg.timing.cooldown_ms)) ∧
    ((mouseHoldTimerBody cfg ts s).2 = false →
      (mouseHoldTimerBody cfg ts s).1.last_fire_ms = s.last_fire_ms) := by
  rw [mouseHoldTimerBody]
  repeat' split
  all_goals
    first
      | exact ⟨fun hf => mouseFireIfAllowed_fired_spec cfg _ ts hf,
               fun hf => mouseFireIfAllowed_unfired_spec cfg _ ts hf⟩
      | exact ⟨fun hf => absurd hf (by simp), fun _ => rfl⟩

/-- Helper: one mouse `_repeat` iteration's fire effect. -/
theorem mouseRepeatTick_fire_spec (cfg : BindConfig) (ts : Int) (s : MouseBindState) :
    ((mouseRepeatTickBody cfg ts s).2 = true →
      (mouseRepeatTickBody cfg ts s).1.last_fire_ms = ts ∧
      (cfg.timing.cooldown_ms ≤ 0 ∨
        ts - s.last_fire_ms ≥ cfg.timing.cooldown_ms)) ∧
    ((mouseRepeatTickBody cfg ts s).2 = false →
      (mouseRepeatTickBody cfg ts s).1.last_fire_ms = s.last_fire_ms) := by
  rw [mouseRepeatTickBody]
  repeat' split
  all_goals
    first
      | exact ⟨fun hf => mouseFireIfAllowed_fired_spec cfg _ ts hf,
               fun hf => mouseFireIfAllowed_unfired_spec cfg _ ts hf⟩
      | exact ⟨fun hf => absurd hf (by simp), fun _ => rfl⟩

/-- Helper: mouse analogue of `kbRunStep_fire_spec`. -/
theorem mouseRunStep_fire_spec (cfg : BindConfig) (button : MouseButton)
    (env : MousePredEnv) (v : InputStateView) (r : MouseRunState) (st : MouseStep) :
    ((mouseRunStep cfg button env v r st).fireLog = r.fireLog ∧
      (mouseRunStep cfg button env v r st).bind.last_fire_ms
        = r.bind.last_fire_ms) ∨
    (∃ ts, (mouseRunStep cfg button env v r st).fireLog = r.fireLog ++ [ts] ∧
      (mouseRunStep cfg button env v r st).bind.last_fire_ms = ts ∧
      (cfg.timing.cooldown_ms ≤ 0 ∨
        ts - r.bind.last_fire_ms ≥ cfg.timing.cooldown_ms)) := by
  cases st with
  | button e =>
      have hsp := mouseHandle_fire_spec cfg button env r.bind e v
      cases hf : (MouseBind.handle cfg button env r.bind e v).fired with
      | false =>
          left
          refine ⟨?_, ?_⟩
          · simp only [mouseRunStep, hf]
            simp
          · simp only [mouseRunStep]
            exact hsp.2 hf
      | true =>
          right
          refine ⟨e.time, ?_, ?_, (hsp.1 hf).2⟩
          · simp only [mouseRunStep, hf]
            simp
          · simp only [mouseRunStep]
            exact (hsp.1 hf).1
  | holdTimer ts =>
      have hsp := mouseHoldTimer_fire_spec cfg ts r.bind
      cases hf : (mouseHoldTimerBody cfg ts r.bind).2 with
      | false =>
          left
          refine ⟨?_, ?_⟩
          · simp only [mouseRunStep, hf]
            simp
          · simp only [mouseRunStep]
            exact hsp.2 hf
      | true =>
          right
          refine ⟨ts, ?_, ?_, (hsp.1 hf).2⟩
          · simp only [mouseRunStep, hf]
            simp
          · simp only [mouseRunStep]
            exact (hsp.1 hf).1
  | repeatTick ts =>
      have hsp := mouseRepeatTick_fire_spec cfg ts r.bind
      cases hf : (mouseRepeatTickBody cfg ts r.bind).2 with
      | false =>
          left
          refine ⟨?_, ?_⟩
          · simp only [mouseRunStep, hf]
            simp
          · simp only [mouseRunStep]
            exact hsp.2 hf
      | true =>
          right
          refine ⟨ts, ?_, ?_, (hsp.1 hf).2⟩
          · simp only [mouseRunStep, hf]
            simp
          · simp only [mouseRunStep]
            exact (hsp.1 hf).1

/-- C8: with `cooldown_ms = c > 0`, the timestamps of consecutive callback
submissions of a bind — keyboard or mouse, over any stream of hook events and
pending hold/repeat timer bodies — satisfy `ts1 < ts2` and `ts2 − ts1 ≥ c`:
every fire site goes through `fire_if_allowed`, which consults `last_fire_ms`
before firing and updates it on every successful fire. -/
theorem cooldown_separation :
    (∀ (cfg : BindConfig) (steps : List ChordSpec) (env : KbPredEnv)
        (stream : List KbStep),
      0 < cfg.timing.cooldown_ms →
      List.Chain' (fun t1 t2 => t1 < t2 ∧ cfg.timing.cooldown_ms ≤ t2 - t1)
        (kbRun cfg steps env stream).fireLog) ∧
    (∀ (cfg : BindConfig) (button : MouseButton) (env : MousePredEnv)
        (v : InputStateView) (stream : List MouseStep),
      0 < cfg.timing.cooldown_ms →
      List.Chain' (fun t1 t2 => t1 < t2 ∧ cfg.timing.cooldown_ms ≤ t2 - t1)
        (mouseRun cfg button env v stream).fireLog) := by
  constructor
  · intro cfg steps env stream hc
    exact (fold_fire_chain cfg.timing.cooldown_ms (kbRunStep cfg steps env)
      (fun r => r.fireLog) (fun r => r.bind.last_fire_ms)
      (fun r st => kbRunStep_fire_spec cfg steps env r st) hc stream {}
      List.chain'_nil (by simp)).1
  · intro cfg button env v stream hc
    exact (fold_fire_chain cfg.timing.cooldown_ms (mouseRunStep cfg button env v)
      (fun r => r.fireLog) (fun r => r.bind.last_fire_ms)
      (fun r st => mouseRunStep_fire_spec cfg button env v r st) hc stream {}
      List.chain'_nil (by simp)).1

/-- C8 (witness): the cooldown-separation theorem at a concrete 100 ms
cooldown, a keyboard stream firing once and a mouse click stream. -/
theorem cooldown_separation_witness :
    List.Chain' (fun t1 t2 => t1 < t2 ∧ cooldownConfig.timing.cooldown_ms ≤ t2 - t1)
      (kbRun cooldownConfig ctrlESteps kbEnvTrue onPressFireStream).fireLog ∧
    List.Chain' (fun t1 t2 => t1 < t2 ∧ cooldownConfig.timing.cooldown_ms ≤ t2 - t1)
      (mouseRun cooldownConfig MouseButton.LEFT mouseEnvTrue emptyView
        mouseClickStream).fireLog :=
  ⟨cooldown_separation.1 cooldownConfig ctrlESteps kbEnvTrue onPressFireStream
      (by decide),
   cooldown_separation.2 cooldownConfig MouseButton.LEFT mouseEnvTrue emptyView
      mouseClickStream (by decide)⟩
